import Mathlib

/-!
# Verification of the aider-ce tool dispatch and change-tracking engine

A shallow embedding, in Lean 4, of the execution core of the `aider-ce`
repository: the granular edit tools (`ReplaceText`, `ReplaceAll`,
`ReplaceLine`, `DeleteLines`), the change ledger and `UndoChange`, the
context-management tools (`Remove`, `MakeEditable`, `MakeReadonly`,
`ViewFilesAtGlob`) and the local tool-call dispatcher
(`NavigatorCoder._execute_local_tool_calls`).

Python strings are modelled as Lean `String`; file contents, the
editable/read-only sets and the change ledger are explicit state threaded
through each operation.  Each tool's `run` method, which in Python catches
all exceptions and returns a message string, is modelled as a total
function `Coder → Coder × String`.  The only modelled source of a *raised*
(uncaught-at-tool-level) exception is the dispatcher's `deletelines`
branch, which in the source refers to the undefined name
`_execute_deletelines`, and the keyword-binding of parsed JSON arguments
to a handler's parameters (a Python `TypeError`); both are represented by
`Except.error` and are caught, as in the source, by the per-tool-call
`except` clause of the dispatch loop.

Components of the repository whose implementation files are not part of
the corpus (`aider/change_tracker.py`, `aider/tools/tool_utils.py`, the
Coder's `_find_occurrences` and `_add_file_to_context` helpers,
`utils.split_concatenated_json`, `json.loads`) are modelled from the
specification; each such definition carries a doc comment beginning
`Modelled from the spec:`.
-/

set_option maxRecDepth 8000

deriving instance DecidableEq for Except

namespace Aider

/-! ## Basic string machinery

Python string operations used by the tools, implemented over `List Char`
with `String` wrappers so that proofs can proceed by list induction while
all definitions stay executable. -/

/-- Character-list form of Python `str.splitlines`: split at `\n`, `\r\n`
or `\r`; a trailing line terminator does not produce a final empty line.
(The exotic Unicode line boundaries recognised by Python are outside the
model; the tools under verification only ever re-join with `"\n"`.) -/
def splitlinesL : List Char → List Char → List (List Char)
  | [], [] => []
  | [], cur => [cur.reverse]
  | '\r' :: '\n' :: rest, cur => cur.reverse :: splitlinesL rest []
  | '\r' :: rest, cur => cur.reverse :: splitlinesL rest []
  | '\n' :: rest, cur => cur.reverse :: splitlinesL rest []
  | c :: rest, cur => splitlinesL rest (c :: cur)

/-- Python `content.splitlines()`. -/
def splitlines (s : String) : List String :=
  (splitlinesL s.toList []).map fun cs => ⟨cs⟩

/-- Character-list form of `"\n".join`. -/
def joinNlL : List (List Char) → List Char
  | [] => []
  | [x] => x
  | x :: y :: rest => x ++ '\n' :: joinNlL (y :: rest)

/-- Python `"\n".join(lines)`. -/
def joinNl (lines : List String) : String :=
  ⟨joinNlL (lines.map String.toList)⟩

/-- `True` iff `needle` occurs as a contiguous sublist of `hay`. -/
def listIsSubstr (needle hay : List Char) : Bool :=
  (List.range (hay.length + 1)).any fun j => needle.isPrefixOf (hay.drop j)

/-- Python `needle in hay` on strings. -/
def strContains (hay needle : String) : Bool :=
  listIsSubstr needle.toList hay.toList

/-- Python slice `s[:n]`. -/
def strTake (s : String) (n : Nat) : String := ⟨s.toList.take n⟩

/-- Python slice `s[n:]`. -/
def strDrop (s : String) (n : Nat) : String := ⟨s.toList.drop n⟩

/-- `True` iff `pat` matches `s` starting at character index `i`. -/
def matchesAt (s pat : String) (i : Nat) : Bool :=
  pat.toList.isPrefixOf (s.toList.drop i)

/-- Python `s.count(sub)` for nonempty `sub` (non-overlapping scan).
The `fuel` argument — initially the scanned list's length, which the scan
never outruns because a nonempty match consumes at least one character —
keeps the recursion structural. -/
def pyCountL (pat : List Char) : Nat → List Char → Nat
  | _, [] => 0
  | 0, _ => 0
  | fuel + 1, c :: rest =>
    if pat.isPrefixOf (c :: rest) ∧ pat ≠ [] then
      1 + pyCountL pat fuel ((c :: rest).drop pat.length)
    else
      pyCountL pat fuel rest

/-- Python `s.count(sub)`; for the empty pattern Python returns
`len(s) + 1`. -/
def pyCount (s pat : String) : Nat :=
  if pat = "" then s.toList.length + 1
  else pyCountL pat.toList s.toList.length s.toList

/-- Python `s.replace(old, new)` for nonempty `old`: non-overlapping
left-to-right replacement, with the same structural `fuel` as
`pyCountL`. -/
def pyReplaceL (pat repl : List Char) : Nat → List Char → List Char
  | _, [] => []
  | 0, cs => cs
  | fuel + 1, c :: rest =>
    if pat.isPrefixOf (c :: rest) ∧ pat ≠ [] then
      repl ++ pyReplaceL pat repl fuel ((c :: rest).drop pat.length)
    else
      c :: pyReplaceL pat repl fuel rest

/-- Python `s.replace(old, new)`; for the empty pattern Python inserts
`new` before every character and at the end. -/
def pyReplace (s pat repl : String) : String :=
  if pat = "" then
    ⟨repl.toList ++ (s.toList.map fun c => c :: repl.toList).flatten⟩
  else
    ⟨pyReplaceL pat.toList repl.toList s.toList.length s.toList⟩

/-- "Ends with a newline character": the last character is `'\n'`. -/
def endsWithNl (s : String) : Bool := s.toList.getLast? = some '\n'

/-- Python whitespace for `str.strip()`. -/
def isWsChar (c : Char) : Bool := c = ' ' ∨ c = '\t' ∨ c = '\n' ∨ c = '\r'

/-- Python `s.strip()`. -/
def strTrim (s : String) : String :=
  ⟨((s.toList.dropWhile isWsChar).reverse.dropWhile isWsChar).reverse⟩

/-- Python `s.lower()` (ASCII tool names). -/
def strToLower (s : String) : String := ⟨s.toList.map Char.toLower⟩

/-- Python `sep.join(parts)`. -/
def strJoin (sep : String) : List String → String
  | [] => ""
  | [x] => x
  | x :: y :: rest => x ++ sep ++ strJoin sep (y :: rest)

/-- Python `s.startswith("/")`. -/
def startsWithSlash (s : String) : Bool := s.toList.head? = some '/'

/-! ## Filesystem collaborator

The spec's filesystem interface (§6): `read_text(path) -> string|None`,
`write_text(path, content)`.  Paths are the relative path strings the
tools exchange; `abs_root_path`/`get_rel_fname` (path canonicalisation,
an excluded collaborator) are modelled as the identity, so absolute and
relative path coincide in the model. -/

/-- The on-disk file store: newest binding first. -/
def FileMap := List (String × String)

instance : DecidableEq FileMap := by
  unfold FileMap
  infer_instance

/-- `io.read_text` / `os.path.isfile`: `none` means the file does not
exist (or became unreadable). -/
def FileMap.read (fs : FileMap) (p : String) : Option String :=
  fs.lookup p

/-- `io.write_text`. -/
def FileMap.write (fs : FileMap) (p c : String) : FileMap :=
  (p, c) :: fs

/-! ## ChangeTracker (the change ledger)

`aider/change_tracker.py` is imported by the corpus
(`from aider.change_tracker import ChangeTracker`) but its implementation
file is not part of it, so the ledger is modelled from the spec. -/

/-- Modelled from the spec: a `ChangeRecord`
`{id, file_path, type, timestamp, original_content, new_content, metadata}`
(§3) — "Immutable once created except for a `reverted` flag set on undo.
`original_content`/`new_content` are full-file snapshots".  The
`timestamp` and `metadata` fields play no part in any claim and are
omitted from the model. -/
structure ChangeRecord where
  cid : String
  file_path : String
  ctype : String
  original_content : String
  new_content : String
  reverted : Bool
deriving DecidableEq, Repr

/-- Modelled from the spec: the `ChangeTracker` ledger of
`aider/change_tracker.py` (absent from the corpus) — "an append-only
store of change records keyed by a generated change id" (§2).  Records
are kept most-recent-first; `nextId` drives change-id generation (the
spec fixes no id format, only that ids are generated when the caller
supplies none). -/
structure ChangeTracker where
  changes : List ChangeRecord
  nextId : Nat
deriving DecidableEq, Repr

/-- The freshly created tracker (`ChangeTracker()`). -/
def ChangeTracker.empty : ChangeTracker := ⟨[], 0⟩

/-- Modelled from the spec: `track(record) -> id` (§4.3) — creates a
`ChangeRecord` "using a caller-supplied id if provided, else a newly
generated one" (§4.2) and appends it to the ledger. -/
def ChangeTracker.track_change (t : ChangeTracker) (file_path ctype
    original_content new_content : String) (change_id : Option String) :
    String × ChangeTracker :=
  let cid := change_id.getD ("change_" ++ toString t.nextId)
  (cid, ⟨⟨cid, file_path, ctype, original_content, new_content, false⟩ :: t.changes,
    t.nextId + 1⟩)

/-- Modelled from the spec: `get(id) -> record|None` (§4.3). -/
def ChangeTracker.get_change (t : ChangeTracker) (cid : String) :
    Option ChangeRecord :=
  t.changes.find? fun r => r.cid = cid

/-- Modelled from the spec: `last_for_file(path) -> id|None` (§4.3) — the
most recent change to the given file. -/
def ChangeTracker.get_last_change (t : ChangeTracker) (fp : String) :
    Option String :=
  (t.changes.find? fun r => r.file_path = fp).map (·.cid)

/-- Modelled from the spec: `list(path?, limit) -> [record]` ordered
most-recent-first (§4.3). -/
def ChangeTracker.list_changes (t : ChangeTracker) (fp : Option String)
    (limit : Nat) : List ChangeRecord :=
  (match fp with
   | none => t.changes
   | some p => t.changes.filter fun r => r.file_path = p).take limit

/-- Modelled from the spec: `undo(id) -> Result<record,
AlreadyReverted|NotFound>` (§4.3) — "undoing an already-reverted id is an
error, not a silent no-op".  Returns the `(success, message, change_info)`
triple consumed by `UndoChange.run`, together with the updated ledger in
which the record is marked reverted. -/
def ChangeTracker.undo_change (t : ChangeTracker) (cid : String) :
    (Bool × String × Option ChangeRecord) × ChangeTracker :=
  match t.changes.find? fun r => r.cid = cid with
  | none => ((false, "Change ID '" ++ cid ++ "' not found", none), t)
  | some r =>
    if r.reverted then
      ((false, "Change '" ++ cid ++ "' has already been reverted", none), t)
    else
      ((true, "Undid change '" ++ cid ++ "'", some r),
        ⟨t.changes.map fun x => if x.cid = cid then { x with reverted := true } else x,
          t.nextId⟩)

/-! ## The coder state

The mutable state of the `NavigatorCoder` session object touched by the
tools under verification: the filesystem collaborator, the editable and
read-only file sets, the "recently removed" shadow set, the change
ledger, the set of files aider edited, the glob cap
(`max_files_per_glob`, set to `50` in `NavigatorCoder.__init__`), the
repository file list and modification times
(`get_all_relative_files` / `os.path.getmtime` collaborators) and the
names of dynamically loaded tools (`local_tool_instances`). -/

structure Coder where
  files : FileMap
  absFnames : Finset String
  absReadOnlyFnames : Finset String
  recentlyRemoved : List String
  changeTracker : ChangeTracker
  aiderEditedFiles : Finset String
  maxFilesPerGlob : Nat
  allFiles : List String
  mtimes : List (String × Nat)
  localToolNames : List String
deriving DecidableEq

/-- `NavigatorCoder.__init__`: `self.max_files_per_glob = 50`. -/
def defaultMaxFilesPerGlob : Nat := 50

/-- `os.path.getmtime` collaborator: the recorded modification time, `0`
for a file without one. -/
def Coder.mtime (st : Coder) (p : String) : Nat :=
  (st.mtimes.lookup p).getD 0

/-! ## tool_utils

`aider/tools/tool_utils.py` is imported by the edit tools
(`ToolError`, `validate_file_for_edit`, `apply_change`,
`generate_unified_diff_snippet`, `format_tool_result`,
`handle_tool_error`) but its implementation file is not part of the
corpus; these helpers are modelled from the spec (§4.2). -/

/-- Modelled from the spec: `validate_file_for_edit` — "validate file is
tracked and is in the editable set (read-only files are rejected with an
instruction to make them editable first; untracked files are rejected);
re-read current on-disk content" (§4.2).  The error messages mirror the
inline checks of `delete_lines.py`, which the in-corpus tools use for the
same validations. -/
def validateFileForEdit (st : Coder) (fp : String) : Except String String :=
  match st.files.read fp with
  | none => .error s!"File '{fp}' not found"
  | some content =>
    if fp ∈ st.absFnames then .ok content
    else if fp ∈ st.absReadOnlyFnames then
      .error s!"File '{fp}' is read-only. Use MakeEditable first."
    else .error s!"File '{fp}' not in context"

/-- Modelled from the spec: `generate_unified_diff_snippet` — "a
unified-diff-style rendering limited to a bounded number of context lines
around each hunk, used purely for human/model feedback, not for storage"
(§4.2).  No claim constrains its text, so it is modelled as an opaque
marker naming the file. -/
def generateUnifiedDiffSnippet (originalContent newContent relPath : String) :
    String :=
  let na := toString originalContent.length
  let nb := toString newContent.length
  s!"[diff of {relPath}: {na} -> {nb} chars]"

/-- Modelled from the spec: `apply_change` — "write the file, create a
ChangeRecord (using a caller-supplied id if provided, else a newly
generated one)" (§4.2).  Returns the final change id together with the
updated coder. -/
def applyChange (st : Coder) (absPath relPath originalContent newContent
    ctype : String) (changeId : Option String) : Coder × String :=
  let (cid, tracker) := st.changeTracker.track_change relPath ctype
    originalContent newContent changeId
  let st' := { st with
    files := st.files.write absPath newContent
    changeTracker := tracker }
  (st', cid)

/-- Modelled from the spec: `format_tool_result` for a successful
(non-dry-run) edit — "return a diff snippet plus the change id" (§4.2). -/
def formatToolResult (toolName successMessage : String) (changeId : Option String)
    (diffSnippet : String) : String :=
  match changeId with
  | some cid => s!"{successMessage} (change_id: {cid})\nDiff snippet:\n{diffSnippet}"
  | none => s!"{successMessage}\nDiff snippet:\n{diffSnippet}"

/-- Modelled from the spec: `format_tool_result` for a dry run — "return
a diff preview and perform no mutation or ledger write" (§4.2). -/
def formatToolResultDryRun (dryRunMessage diffSnippet : String) : String :=
  s!"{dryRunMessage}\nDiff snippet:\n{diffSnippet}"

/-- Modelled from the spec: `handle_tool_error` — every failure path
"terminates in a ToolResponse string" (§7); the error text is returned to
the model prefixed as an error. -/
def handleToolError (msg : String) : String := s!"Error: {msg}"

/-- Modelled from the spec: `Coder._find_occurrences(content, find_text,
near_context)` (referenced by `replace_text.py`; its implementation is on
the Coder class, outside the corpus) — "find all byte offsets where
`find_text` occurs; if `near_context` is given, filter to occurrences
whose surrounding window (a fixed radius of characters before/after) also
contains `near_context`" (§4.1).  The fixed radius is modelled as 200
characters. -/
def findOccurrences (content find_text : String) (near_context : Option String) :
    List Nat :=
  let all := (List.range (content.toList.length + 1 - find_text.toList.length)).filter
    fun i => matchesAt content find_text i
  match near_context with
  | none => all
  | some near => all.filter fun i =>
      listIsSubstr near.toList
        (((content.toList).drop (i - 200)).take (find_text.toList.length + 400))

/-! ## ReplaceText (`aider/tools/replace_text.py`) -/

/-- The out-of-range error of `ReplaceText.run`, naming how many
occurrences were actually found. -/
def occurrenceOutOfRangeMsg (occurrence : Int) (num_occurrences : Nat)
    (find_text : String) (near_context : Option String) (file_path : String) :
    String :=
  let nearMsg := match near_context with
    | some near => s!" near '{near}'"
    | none => ""
  s!"Occurrence number {occurrence} is out of range. Found" ++
    s!" {num_occurrences} occurrences of '{find_text}'{nearMsg} in '{file_path}'."

/-- Step 3 of `ReplaceText.run` ("Select the occurrence index"): `-1`
selects the last of the `num_occurrences` matches, a value in
`1..num_occurrences` selects that match (converted to 0-based), anything
else is an error naming how many occurrences were found. -/
def selectOccurrence (occurrence : Int) (num_occurrences : Nat)
    (find_text : String) (near_context : Option String) (file_path : String) :
    Except String Nat :=
  if occurrence = -1 then .ok (num_occurrences - 1)
  else if 1 ≤ occurrence ∧ occurrence ≤ (num_occurrences : Int) then
    .ok (occurrence.toNat - 1)
  else
    .error (occurrenceOutOfRangeMsg occurrence num_occurrences find_text
      near_context file_path)

/-- `ReplaceText.run`: replace one occurrence of `find_text`, selected by
the 1-based `occurrence` index (`-1` = last), optionally disambiguated by
`near_context`. -/
def ReplaceText.run (st : Coder) (file_path find_text replace_text : String)
    (near_context : Option String) (occurrence : Int) (change_id : Option String)
    (dry_run : Bool) : Coder × String :=
  match validateFileForEdit st file_path with
  | .error e => (st, handleToolError e)
  | .ok original_content =>
    let occurrences := findOccurrences original_content find_text near_context
    if occurrences = [] then
      let nearMsg := match near_context with
        | some near => s!" near context '{near}'"
        | none => ""
      (st, handleToolError s!"Text '{find_text}' not found{nearMsg} in file '{file_path}'.")
    else
      let num_occurrences := occurrences.length
      match selectOccurrence occurrence num_occurrences find_text near_context file_path with
      | .error e => (st, handleToolError e)
      | .ok target_idx =>
        let start_index := occurrences.getD target_idx 0
        let new_content := strTake original_content start_index ++ replace_text ++
          strDrop original_content (start_index + find_text.toList.length)
        if original_content = new_content then
          (st, "Warning: No changes made (replacement identical to original)")
        else
          let diff_snippet := generateUnifiedDiffSnippet original_content new_content file_path
          let occurrence_str :=
            if num_occurrences > 1 then s!"occurrence {occurrence}" else "text"
          if dry_run then
            (st, formatToolResultDryRun
              s!"Dry run: Would replace {occurrence_str} of '{find_text}' in {file_path}."
              diff_snippet)
          else
            let r := applyChange st file_path file_path original_content new_content
              "replacetext" change_id
            (r.1, formatToolResult "ReplaceText" s!"Replaced {occurrence_str} in {file_path}"
              (some r.2) diff_snippet)

/-! ## ReplaceAll (`aider/tools/replace_all.py`) -/

/-- `ReplaceAll.run`: replace every occurrence of `find_text` in the
file. -/
def ReplaceAll.run (st : Coder) (file_path find_text replace_text : String)
    (change_id : Option String) (dry_run : Bool) : Coder × String :=
  match validateFileForEdit st file_path with
  | .error e => (st, handleToolError e)
  | .ok original_content =>
    let count := pyCount original_content find_text
    if count = 0 then
      (st, "Warning: Text not found in file")
    else
      let new_content := pyReplace original_content find_text replace_text
      if original_content = new_content then
        (st, "Warning: No changes made (replacement identical to original)")
      else
        let diff_examples := generateUnifiedDiffSnippet original_content new_content file_path
        if dry_run then
          (st, formatToolResultDryRun
            s!"Dry run: Would replace {count} occurrences of '{find_text}' in {file_path}."
            diff_examples)
        else
          let r := applyChange st file_path file_path original_content new_content
            "replaceall" change_id
          (r.1, formatToolResult "ReplaceAll" s!"Replaced {count} occurrences in {file_path}"
            (some r.2) diff_examples)

/-! ## ReplaceLine (`aider/tools/replace_line.py`) -/

/-- The readable line diff of `ReplaceLine.run`:
`f"Line {line_number}:\n- {original_line}\n+ {new_content}"`. -/
def replaceLineDiff (ln : Int) (original_line new_content : String) : String :=
  s!"Line {ln}:\n- {original_line}\n+ {new_content}"

/-- The success message of `ReplaceLine.run`. -/
def replaceLineSuccessMsg (ln : Int) (cid diff : String) : String :=
  s!"Successfully replaced line {ln} (change_id: {cid}). Diff:\n{diff}"

/-- `ReplaceLine.run`: replace the 1-based line `line_number` with
`new_content`, rebuilding the file as `"\n".join(lines)`. -/
def ReplaceLine.run (st : Coder) (file_path : String) (line_number : Int)
    (new_content : String) (change_id : Option String) (dry_run : Bool) :
    Coder × String :=
  match st.files.read file_path with
  | none => (st, "Error: File not found")
  | some file_content =>
    if file_path ∉ st.absFnames then
      if file_path ∈ st.absReadOnlyFnames then
        (st, "Error: File is read-only. Use MakeEditable first.")
      else
        (st, "Error: File not in context")
    else
      let lines := splitlines file_content
      let nlines := lines.length
      if line_number - 1 < 0 ∨ line_number - 1 ≥ (nlines : Int) then
        (st, s!"Error: Line number {line_number} out of range")
      else
        let idx := (line_number - 1).toNat
        let original_content := file_content
        let original_line := lines.getD idx ""
        let new_content_full := joinNl (lines.set idx new_content)
        if original_content = new_content_full then
          (st, "Warning: No changes made (new content identical to original)")
        else
          let diff := replaceLineDiff line_number original_line new_content
          if dry_run then
            (st, s!"Dry run: Would replace line {line_number}. Diff:\n{diff}")
          else
            let files' := st.files.write file_path new_content_full
            let tr := st.changeTracker.track_change file_path "replaceline"
              original_content new_content_full change_id
            let st' := { st with
              files := files'
              changeTracker := tr.2
              aiderEditedFiles := insert file_path st.aiderEditedFiles }
            let cid := tr.1
            (st', replaceLineSuccessMsg line_number cid diff)

/-! ## DeleteLines (`aider/tools/delete_lines.py`) -/

/-- `DeleteLines.run`: delete the inclusive 1-based line range
`start_line..end_line`, rebuilding the file as `"\n".join(lines)`. -/
def DeleteLines.run (st : Coder) (file_path : String) (start_line end_line : Int)
    (change_id : Option String) (dry_run : Bool) : Coder × String :=
  match st.files.read file_path with
  | none => (st, handleToolError s!"File '{file_path}' not found")
  | some file_content =>
    if file_path ∉ st.absFnames then
      if file_path ∈ st.absReadOnlyFnames then
        (st, handleToolError s!"File '{file_path}' is read-only. Use MakeEditable first.")
      else
        (st, handleToolError s!"File '{file_path}' not in context")
    else
      let lines := splitlines file_content
      let original_content := file_content
      let nlines := lines.length
      if start_line < 1 ∨ start_line > (nlines : Int) then
        (st, handleToolError s!"Start line {start_line} is out of range (1-{nlines})")
      else if end_line < 1 ∨ end_line > (nlines : Int) then
        (st, handleToolError s!"End line {end_line} is out of range (1-{nlines})")
      else if start_line > end_line then
        (st, handleToolError s!"Start line {start_line} cannot be after end line {end_line}")
      else
        let start_idx := (start_line - 1).toNat
        let end_idx := (end_line - 1).toNat
        let new_lines := lines.take start_idx ++ lines.drop (end_idx + 1)
        let new_content := joinNl new_lines
        if original_content = new_content then
          (st, s!"Warning: No changes made (deleting lines" ++
            s!" {start_line}-{end_line} would not change file)")
        else
          let diff_snippet := generateUnifiedDiffSnippet original_content new_content file_path
          if dry_run then
            (st, formatToolResultDryRun
              s!"Dry run: Would delete lines {start_line}-{end_line} in {file_path}"
              diff_snippet)
          else
            let r := applyChange st file_path file_path original_content new_content
              "deletelines" change_id
            let st' := { r.1 with aiderEditedFiles := insert file_path r.1.aiderEditedFiles }
            let num_deleted := end_idx - start_idx + 1
            (st', formatToolResult "DeleteLines"
              s!"Deleted {num_deleted} lines ({start_line}-{end_line}) in {file_path}"
              (some r.2) diff_snippet)

/-! ## UndoChange (`aider/tools/undo_change.py`) -/

/-- The success message of `UndoChange.run`. -/
def undoSuccessMsg (change_type cid : String) : String :=
  s!"Successfully undid {change_type} change '{cid}'."

/-- The error wrapper of `UndoChange.run` around a tracker failure
message. -/
def undoErrorMsg (message : String) : String := s!"Error: {message}"

/-- `UndoChange.run`: undo a specific change by id, or the last change to
a file.  On success the change record's `original_content` is written
back to `file_path` and the record is marked reverted; undoing an
already-reverted id returns an error message. -/
def UndoChange.run (st : Coder) (change_id file_path : Option String) :
    Coder × String :=
  match change_id, file_path with
  | none, none => (st, "Error: Must specify either change_id or file_path")
  | _, _ =>
    let cidE : Except String String :=
      match file_path with
      | some fp =>
        match st.changeTracker.get_last_change fp with
        | none => .error s!"Error: No changes found for file '{fp}'"
        | some c => .ok c
      | none => .ok (change_id.getD "")
    match cidE with
    | .error e => (st, e)
    | .ok cid =>
      let u := st.changeTracker.undo_change cid
      if ¬ u.1.1 then
        let message := u.1.2.1
        (st, undoErrorMsg message)
      else
        match u.1.2.2 with
        | some ci =>
          let st' := { st with
            changeTracker := u.2
            files := st.files.write ci.file_path ci.original_content
            aiderEditedFiles := insert ci.file_path st.aiderEditedFiles }
          let ct := ci.ctype
          (st', undoSuccessMsg ct cid)
        | none =>
          ({ st with changeTracker := u.2 },
            s!"Error: Failed to undo change '{cid}' (missing change info)")

/-! ## Remove (`aider/tools/remove.py`) -/

/-- `Remove.run`: explicitly remove a file from context, refusing to
remove the last remaining file. -/
def Remove.run (st : Coder) (file_path : String) : Coder × String :=
  if file_path ∈ st.absFnames then
    if st.absFnames.card ≤ 1 ∧ st.absReadOnlyFnames = ∅ then
      (st, "Cannot remove - last file in context")
    else
      let st' := { st with
        absFnames := st.absFnames.erase file_path
        recentlyRemoved := file_path :: st.recentlyRemoved }
      (st', "Removed file from context")
  else if file_path ∈ st.absReadOnlyFnames then
    if st.absReadOnlyFnames.card ≤ 1 ∧ st.absFnames = ∅ then
      (st, "Cannot remove - last file in context")
    else
      let st' := { st with
        absReadOnlyFnames := st.absReadOnlyFnames.erase file_path
        recentlyRemoved := file_path :: st.recentlyRemoved }
      (st', "Removed file from context")
  else
    (st, "File not in context")

/-! ## MakeEditable / MakeReadonly (`aider/tools/make_editable.py`,
`aider/tools/make_readonly.py`) -/

/-- `MakeEditable.run`: move a file into the editable set (from the
read-only set, or straight from disk). -/
def MakeEditable.run (st : Coder) (file_path : String) : Coder × String :=
  if file_path ∈ st.absFnames then
    (st, "File is already editable")
  else if (st.files.read file_path).isNone then
    (st, "Error: File not found")
  else if file_path ∈ st.absReadOnlyFnames then
    let st' := { st with
      absReadOnlyFnames := st.absReadOnlyFnames.erase file_path
      absFnames := insert file_path st.absFnames }
    (st', "File is now editable (moved from read-only)")
  else
    ({ st with absFnames := insert file_path st.absFnames },
      "File is now editable (added directly)")

/-- `MakeReadonly.run`: move an editable file into the read-only set. -/
def MakeReadonly.run (st : Coder) (file_path : String) : Coder × String :=
  if file_path ∉ st.absFnames then
    if file_path ∈ st.absReadOnlyFnames then
      (st, "File is already read-only")
    else
      (st, "File not in context")
  else
    let st' := { st with
      absFnames := st.absFnames.erase file_path
      absReadOnlyFnames := insert file_path st.absReadOnlyFnames }
    (st', "File is now read-only")

/-! ## ViewFilesAtGlob (`aider/tools/view_files_at_glob.py`) -/

/-- Modelled from the spec: `Coder._add_file_to_context` (on the Coder
class, outside the corpus) as used by the discovery tools —
"FileContextEntries are created by explicit view/glob/grep/symbol-search
operations" (§3) and glob matches are "added to context as read-only"
(the tool's own description); a file already in either set is left
where it is. -/
def addFileToContext (st : Coder) (fp : String) : Coder :=
  if fp ∈ st.absFnames ∨ fp ∈ st.absReadOnlyFnames then st
  else { st with absReadOnlyFnames := insert fp st.absReadOnlyFnames }

/-- The return message of `ViewFilesAtGlob.run` when files were added. -/
def addedFilesMsg (n : Nat) (first5 more : String) : String :=
  s!"Added {n} files: {first5}{more}"

/-- `ViewFilesAtGlob.run`: add the files matching a glob pattern to the
context as read-only, capping the number added at
`st.maxFilesPerGlob` by most-recent modification time.  The `fnmatch`
collaborator (Python's stdlib) is passed in as the predicate `g`
mapping `(file, pattern)` to whether the file matches; leading-`/`
patterns are made root-relative (`os.path.relpath` collaborator,
modelled as dropping the slash for patterns inside the root). -/
def ViewFilesAtGlob.run (g : String → String → Bool) (st : Coder)
    (pattern : String) : Coder × String :=
  let pattern' := if startsWithSlash pattern then strDrop pattern 1 else pattern
  let matched := st.allFiles.filter fun f => g f pattern'
  let matching_files :=
    if matched.length > st.maxFilesPerGlob then
      (matched.insertionSort fun a b => st.mtime b ≤ st.mtime a).take st.maxFilesPerGlob
    else matched
  let st' := matching_files.foldl addFileToContext st
  if matching_files.isEmpty then
    (st', s!"No files found matching '{pattern}'")
  else
    let n := matching_files.length
    let first5 := strJoin ", " (matching_files.take 5)
    let more := if matching_files.length > 5 then " and more" else ""
    (st', addedFilesMsg n first5 more)

/-! ## JSON argument decoding

The dispatcher receives each ToolCall's arguments as a raw string that
"may contain multiple concatenated JSON objects (a streaming artifact)
and must be split before parsing" (§3).  The splitter
(`utils.split_concatenated_json`) and `json.loads` are collaborators
whose sources are outside the corpus; they are modelled from the spec
for the flat `{"key": scalar, ...}` argument objects the tools
receive. -/

/-- A scalar JSON value of a tool-argument object. -/
inductive JVal where
  | str (s : String)
  | num (n : Int)
  | bool (b : Bool)
  | null
deriving DecidableEq, Repr

/-- A parsed argument object: keys are unique (last binding wins, as in a
Python dict built by `json.loads`). -/
abbrev Params := List (String × JVal)

/-- Modelled from the spec: `utils.split_concatenated_json` — split a raw
argument string into the maximal balanced `{...}` fragments it
concatenates, respecting string literals and escapes; an unbalanced tail
is emitted as a final fragment (it then fails to parse and is skipped,
per §4.5). -/
def splitConcatJsonAux : List Char → List Char → Nat → Bool → Bool →
    List String → List String
  | [], cur, _, _, _, acc =>
    (if cur.isEmpty then acc else (⟨cur.reverse⟩ : String) :: acc).reverse
  | c :: rest, cur, depth, inStr, esc, acc =>
    if inStr then
      if esc then splitConcatJsonAux rest (c :: cur) depth true false acc
      else if c = '\\' then splitConcatJsonAux rest (c :: cur) depth true true acc
      else if c = '"' then splitConcatJsonAux rest (c :: cur) depth false false acc
      else splitConcatJsonAux rest (c :: cur) depth true false acc
    else if c = '"' then splitConcatJsonAux rest (c :: cur) depth true false acc
    else if c = '{' then splitConcatJsonAux rest (c :: cur) (depth + 1) false false acc
    else if c = '}' then
      if depth = 1 then
        splitConcatJsonAux rest [] 0 false false ((⟨(c :: cur).reverse⟩ : String) :: acc)
      else splitConcatJsonAux rest (c :: cur) (depth - 1) false false acc
    else if depth = 0 then splitConcatJsonAux rest cur 0 false false acc
    else splitConcatJsonAux rest (c :: cur) depth false false acc

/-- Split a raw argument string into JSON object fragments. -/
def splitConcatJson (s : String) : List String :=
  splitConcatJsonAux s.toList [] 0 false false []

/-- JSON whitespace skipping. -/
def skipWs : List Char → List Char
  | c :: rest =>
    if c = ' ' ∨ c = '\t' ∨ c = '\n' ∨ c = '\r' then skipWs rest else c :: rest
  | [] => []

/-- Parse the body of a JSON string literal after the opening quote. -/
def parseStrBody : List Char → List Char → Option (String × List Char)
  | [], _ => none
  | '"' :: rest, acc => some (⟨acc.reverse⟩, rest)
  | '\\' :: e :: rest, acc =>
    if e = '"' then parseStrBody rest ('"' :: acc)
    else if e = '\\' then parseStrBody rest ('\\' :: acc)
    else if e = '/' then parseStrBody rest ('/' :: acc)
    else if e = 'n' then parseStrBody rest ('\n' :: acc)
    else if e = 't' then parseStrBody rest ('\t' :: acc)
    else if e = 'r' then parseStrBody rest ('\r' :: acc)
    else none
  | '\\' :: [], _ => none
  | c :: rest, acc => parseStrBody rest (c :: acc)

/-- Parse a decimal digit run. -/
def parseDigits : List Char → Nat → Option (Nat × List Char)
  | c :: rest, acc =>
    if c.isDigit then
      match parseDigits rest (acc * 10 + (c.toNat - 48)) with
      | some r => some r
      | none => some (acc * 10 + (c.toNat - 48), rest)
    else if acc = 0 ∧ ¬ c.isDigit then none
    else some (acc, c :: rest)
  | [], acc => some (acc, [])

/-- Parse one scalar JSON value. -/
def parseJVal (cs : List Char) : Option (JVal × List Char) :=
  match skipWs cs with
  | '"' :: rest => (parseStrBody rest []).map fun r => (.str r.1, r.2)
  | '-' :: rest =>
    match rest with
    | d :: _ =>
      if d.isDigit then
        (parseDigits rest 0).map fun r => (.num (-(r.1 : Int)), r.2)
      else none
    | [] => none
  | 't' :: 'r' :: 'u' :: 'e' :: rest => some (.bool true, rest)
  | 'f' :: 'a' :: 'l' :: 's' :: 'e' :: rest => some (.bool false, rest)
  | 'n' :: 'u' :: 'l' :: 'l' :: rest => some (.null, rest)
  | d :: rest =>
    if d.isDigit then
      (parseDigits (d :: rest) 0).map fun r => ((.num (r.1 : Int)), r.2)
    else none
  | [] => none

/-- Insert a key/value binding, dict-style (a repeated key overwrites the
earlier binding). -/
def paramsInsert (ps : Params) (k : String) (v : JVal) : Params :=
  (ps.filter fun kv => kv.1 ≠ k) ++ [(k, v)]

/-- Parse the members of a JSON object after the opening brace. -/
def parseMembers : Nat → List Char → Params → Option (Params × List Char)
  | 0, _, _ => none
  | fuel + 1, cs, acc =>
    match parseJVal cs with
    | some (.str k, rest) =>
      match skipWs rest with
      | ':' :: rest2 =>
        match parseJVal rest2 with
        | some (v, rest3) =>
          let acc' := paramsInsert acc k v
          match skipWs rest3 with
          | ',' :: rest4 => parseMembers fuel rest4 acc'
          | '}' :: rest4 => some (acc', rest4)
          | _ => none
        | none => none
      | _ => none
    | _ => none

/-- Modelled from the spec: `json.loads` restricted to the flat
`{"key": scalar}` objects that carry tool arguments; anything else
(nested containers, trailing junk) fails to parse, and a failed fragment
is "skipped with a warning, not fatal to the rest" (§4.5). -/
def jsonParseObj (s : String) : Option Params :=
  match skipWs s.toList with
  | '{' :: rest =>
    match skipWs rest with
    | '}' :: tail => if skipWs tail = [] then some [] else none
    | _ =>
      match parseMembers (rest.length + 1) rest [] with
      | some (ps, tail) => if skipWs tail = [] then some ps else none
      | none => none
  | _ => none

/-- Look up a string-typed argument. -/
def pStr (ps : Params) (k : String) : Option String :=
  match ps.lookup k with
  | some (.str s) => some s
  | _ => none

/-- Look up an integer-typed argument. -/
def pInt (ps : Params) (k : String) : Option Int :=
  match ps.lookup k with
  | some (.num n) => some n
  | _ => none

/-- Look up a boolean-typed argument. -/
def pBool (ps : Params) (k : String) : Option Bool :=
  match ps.lookup k with
  | some (.bool b) => some b
  | _ => none

/-- Keyword binding of `handler(self, **params)`: every supplied key must
be a parameter the handler accepts, else Python raises `TypeError` before
the handler body runs (the raise is caught by the dispatch loop's
per-tool-call `except`). -/
def keysAllowed (ps : Params) (allowed : List String) : Bool :=
  ps.all fun kv => allowed.contains kv.1

/-! ## The dispatch loop (`NavigatorCoder._execute_local_tool_calls`) -/

/-- One tool call of a turn: `{id, name, raw_arguments}` (§3);
`arguments` is `tool_call.function.arguments`. -/
structure ToolCall where
  id : String
  name : String
  arguments : String
deriving DecidableEq, Repr

/-- One tool response: `{tool_call_id, name, content}` (§3). -/
structure ToolResponse where
  tool_call_id : String
  name : String
  content : String
deriving DecidableEq, Repr

/-- Reduced model of the dispatcher branches whose handler bodies are
outside this embedding: either the handler's implementation file is not
part of the corpus (`_execute_view_files_matching`, `_execute_grep`,
`_execute_insert_block`, `_execute_delete_block`,
`_execute_replace_lines`, `_execute_indent_lines`,
`_execute_delete_line`, `_execute_extract_lines`), or the handler is
dominated by an excluded collaborator (terminal listing for `execute_ls`
and `execute_view`, subprocess execution for `_execute_command` and
`_execute_command_interactive`, the repo-graph for
`_execute_view_files_with_symbol`, timestamp rendering for
`_execute_list_changes`, numbered rendering for
`execute_show_numbered_context`).  No claim constrains these branches;
each returns an opaque marker string and, like its Python counterpart
(whose `run` catches every exception), never raises. -/
def reducedToolResult (name : String) (st : Coder) : Coder × String :=
  (st, s!"[{name} executed]")

/-- The Python `TypeError` raised by `handler(self, **params)` when the
parsed argument object does not bind to the handler's parameters. -/
def typeErrorFor (name : String) : Except String (Coder × String) :=
  .error s!"TypeError: invalid arguments for {name}"

/-- The `NameError` text for the undefined `_execute_deletelines`
referenced by the dispatcher's `deletelines` branch. -/
def deletelinesNameError : String := "name '_execute_deletelines' is not defined"

/-- One fragment dispatch: the `if norm_tool_name == ... / elif ...`
chain of `_execute_local_tool_calls` (navigator_coder.py lines 826-898),
in source order.  A branch whose handler invocation raises — the
`deletelines` branch, whose call site names the undefined
`_execute_deletelines` while the module imports `_execute_delete_lines`
(a `NameError` at lookup time), and any keyword-binding `TypeError` — is
an `Except.error`, caught by the per-tool-call `except` of the loop.
`g` is the `fnmatch` collaborator for `ViewFilesAtGlob`. -/
def dispatchOne (g : String → String → Bool) (st : Coder)
    (norm_tool_name tool_name : String) (params : Params) :
    Except String (Coder × String) :=
  if norm_tool_name = "viewfilesatglob" then
    match pStr params "pattern" with
    | some pattern =>
      if keysAllowed params ["pattern"] then .ok (ViewFilesAtGlob.run g st pattern)
      else typeErrorFor tool_name
    | none => typeErrorFor tool_name
  else if norm_tool_name = "viewfilesmatching" then
    .ok (reducedToolResult "ViewFilesMatching" st)
  else if norm_tool_name = "ls" then
    .ok (reducedToolResult "Ls" st)
  else if norm_tool_name = "view" then
    .ok (reducedToolResult "View" st)
  else if norm_tool_name = "remove" then
    match pStr params "file_path" with
    | some fp =>
      if keysAllowed params ["file_path"] then .ok (Remove.run st fp)
      else typeErrorFor tool_name
    | none => typeErrorFor tool_name
  else if norm_tool_name = "makeeditable" then
    match pStr params "file_path" with
    | some fp =>
      if keysAllowed params ["file_path"] then .ok (MakeEditable.run st fp)
      else typeErrorFor tool_name
    | none => typeErrorFor tool_name
  else if norm_tool_name = "makereadonly" then
    match pStr params "file_path" with
    | some fp =>
      if keysAllowed params ["file_path"] then .ok (MakeReadonly.run st fp)
      else typeErrorFor tool_name
    | none => typeErrorFor tool_name
  else if norm_tool_name = "viewfileswithsymbol" then
    .ok (reducedToolResult "ViewFilesWithSymbol" st)
  else if norm_tool_name = "command" then
    .ok (reducedToolResult "Command" st)
  else if norm_tool_name = "commandinteractive" then
    .ok (reducedToolResult "CommandInteractive" st)
  else if norm_tool_name = "grep" then
    .ok (reducedToolResult "Grep" st)
  else if norm_tool_name = "replacetext" then
    match pStr params "file_path", pStr params "find_text", pStr params "replace_text" with
    | some fp, some ft, some rt =>
      if keysAllowed params ["file_path", "find_text", "replace_text", "near_context",
          "occurrence", "change_id", "dry_run"] then
        .ok (ReplaceText.run st fp ft rt (pStr params "near_context")
          ((pInt params "occurrence").getD 1) (pStr params "change_id")
          ((pBool params "dry_run").getD false))
      else typeErrorFor tool_name
    | _, _, _ => typeErrorFor tool_name
  else if norm_tool_name = "replaceall" then
    match pStr params "file_path", pStr params "find_text", pStr params "replace_text" with
    | some fp, some ft, some rt =>
      if keysAllowed params ["file_path", "find_text", "replace_text", "change_id",
          "dry_run"] then
        .ok (ReplaceAll.run st fp ft rt (pStr params "change_id")
          ((pBool params "dry_run").getD false))
      else typeErrorFor tool_name
    | _, _, _ => typeErrorFor tool_name
  else if norm_tool_name = "insertblock" then
    .ok (reducedToolResult "InsertBlock" st)
  else if norm_tool_name = "deleteblock" then
    .ok (reducedToolResult "DeleteBlock" st)
  else if norm_tool_name = "replaceline" then
    match pStr params "file_path", pInt params "line_number", pStr params "new_content" with
    | some fp, some ln, some nc =>
      if keysAllowed params ["file_path", "line_number", "new_content", "change_id",
          "dry_run"] then
        .ok (ReplaceLine.run st fp ln nc (pStr params "change_id")
          ((pBool params "dry_run").getD false))
      else typeErrorFor tool_name
    | _, _, _ => typeErrorFor tool_name
  else if norm_tool_name = "replacelines" then
    .ok (reducedToolResult "ReplaceLines" st)
  else if norm_tool_name = "indentlines" then
    .ok (reducedToolResult "IndentLines" st)
  else if norm_tool_name = "deleteline" then
    .ok (reducedToolResult "DeleteLine" st)
  else if norm_tool_name = "deletelines" then
    .error deletelinesNameError
  else if norm_tool_name = "undochange" then
    if keysAllowed params ["change_id", "file_path"] then
      .ok (UndoChange.run st (pStr params "change_id") (pStr params "file_path"))
    else typeErrorFor tool_name
  else if norm_tool_name = "listchanges" then
    .ok (reducedToolResult "ListChanges" st)
  else if norm_tool_name = "extractlines" then
    .ok (reducedToolResult "ExtractLines" st)
  else if norm_tool_name = "shownumberedcontext" then
    .ok (reducedToolResult "ShowNumberedContext" st)
  else if st.localToolNames.contains tool_name then
    .ok (st, s!"[custom tool {tool_name} executed]")
  else
    .ok (st, s!"Error: Unknown local tool name '{tool_name}'")

/-- The `for params in parsed_args_list` loop of one tool call: run each
fragment in order, collecting `all_results_content`; a raised exception
aborts the remaining fragments, keeping the state changes of the
fragments already run (Python mutates the coder in place). -/
def runFragments (g : String → String → Bool) (st : Coder)
    (norm_tool_name tool_name : String) :
    List Params → Coder × Except String (List String)
  | [] => (st, .ok [])
  | p :: ps =>
    match dispatchOne g st norm_tool_name tool_name p with
    | .error e => (st, .error e)
    | .ok (st1, r) =>
      let rest := runFragments g st1 norm_tool_name tool_name ps
      (rest.1, rest.2.map fun rs => r :: rs)

/-- The argument-decoding stage of one ToolCall: strip the raw arguments,
split them into concatenated JSON fragments, skip the fragments that fail
to parse, and treat an entirely empty argument string as a single call
with no parameters. -/
def parsedArgsList (tc : ToolCall) : List Params :=
  let args_string := strTrim tc.arguments
  let chunks := if args_string = "" then [] else splitConcatJson args_string
  let parsed := chunks.filterMap jsonParseObj
  if parsed.isEmpty ∧ args_string = "" then [[]] else parsed

/-- Processing of one ToolCall inside `_execute_local_tool_calls`: decode
the argument fragments, run them in order, and join their results with a
blank line; an exception raised while running becomes the single
`Error executing ...` content for the whole call. -/
def processToolCall (g : String → String → Bool) (st : Coder) (tc : ToolCall) :
    Coder × ToolResponse :=
  let norm_tool_name := strToLower tc.name
  let res := runFragments g st norm_tool_name tc.name (parsedArgsList tc)
  let content :=
    match res.2 with
    | .ok all_results_content => strJoin "\n\n" all_results_content
    | .error e => s!"Error executing {tc.name}: {e}"
  (res.1, ⟨tc.id, tc.name, content⟩)

/-- `NavigatorCoder._execute_local_tool_calls`: execute a turn's tool
calls strictly in order, producing exactly one ToolResponse per ToolCall;
every failure path terminates in a response string. -/
def executeLocalToolCalls (g : String → String → Bool) (st : Coder) :
    List ToolCall → Coder × List ToolResponse
  | [] => (st, [])
  | tc :: rest =>
    let r1 := processToolCall g st tc
    let r2 := executeLocalToolCalls g r1.1 rest
    (r2.1, r1.2 :: r2.2)

/-! ## Theorems -/

/-- C6: Last-file protection.  Under the context invariant that the
editable and read-only sets are disjoint (§3), a `Remove` of the file
that is the whole union of the two sets is rejected with the explanatory
message and the state — both sets included — is left unchanged, whether
the file is editable or read-only; and any `Remove` that reports success
leaves the union of the two sets non-empty. -/
theorem last_file_protection :
    (∀ (st : Coder) (fp : String),
      Disjoint st.absFnames st.absReadOnlyFnames →
      st.absFnames ∪ st.absReadOnlyFnames = {fp} →
      Remove.run st fp = (st, "Cannot remove - last file in context")) ∧
    (∀ (st st' : Coder) (fp : String),
      Remove.run st fp = (st', "Removed file from context") →
      (st'.absFnames ∪ st'.absReadOnlyFnames).Nonempty) := by
  constructor
  · intro st fp hdisj huni
    have hfp : fp ∈ st.absFnames ∪ st.absReadOnlyFnames := by
      rw [huni]; exact Finset.mem_singleton_self fp
    have hedsub : st.absFnames ⊆ {fp} := huni ▸ Finset.subset_union_left
    have hrosub : st.absReadOnlyFnames ⊆ {fp} := huni ▸ Finset.subset_union_right
    rcases Finset.mem_union.mp hfp with hed | hro
    · have hnotro : fp ∉ st.absReadOnlyFnames := Finset.disjoint_left.mp hdisj hed
      have hroempty : st.absReadOnlyFnames = ∅ := by
        rcases Finset.subset_singleton_iff.mp hrosub with h | h
        · exact h
        · exact absurd (h ▸ Finset.mem_singleton_self fp) hnotro
      have hedcard : st.absFnames.card ≤ 1 := by
        calc st.absFnames.card ≤ ({fp} : Finset String).card := Finset.card_le_card hedsub
        _ = 1 := Finset.card_singleton fp
      simp [Remove.run, hed, hedcard, hroempty]
    · have hnoted : fp ∉ st.absFnames := Finset.disjoint_right.mp hdisj hro
      have hedempty : st.absFnames = ∅ := by
        rcases Finset.subset_singleton_iff.mp hedsub with h | h
        · exact h
        · exact absurd (h ▸ Finset.mem_singleton_self fp) hnoted
      have hrocard : st.absReadOnlyFnames.card ≤ 1 := by
        calc st.absReadOnlyFnames.card ≤ ({fp} : Finset String).card :=
          Finset.card_le_card hrosub
        _ = 1 := Finset.card_singleton fp
      simp [Remove.run, hnoted, hro, hrocard, hedempty]
  · intro st st' fp h
    simp only [Remove.run] at h
    split_ifs at h with hed hguard hro hguard2
    · simp at h
    · rw [Prod.mk.injEq] at h
      obtain ⟨hst, -⟩ := h
      subst hst
      push_neg at hguard
      by_cases hcardle : st.absFnames.card ≤ 1
      · have hne : st.absReadOnlyFnames.Nonempty :=
          Finset.nonempty_iff_ne_empty.mpr (hguard hcardle)
        exact hne.mono Finset.subset_union_right
      · have herase := Finset.card_erase_of_mem hed
        have hne : (st.absFnames.erase fp).Nonempty := Finset.card_pos.mp (by omega)
        exact hne.mono Finset.subset_union_left
    · simp at h
    · rw [Prod.mk.injEq] at h
      obtain ⟨hst, -⟩ := h
      subst hst
      push_neg at hguard2
      by_cases hcardle : st.absReadOnlyFnames.card ≤ 1
      · have hne : st.absFnames.Nonempty :=
          Finset.nonempty_iff_ne_empty.mpr (hguard2 hcardle)
        exact hne.mono Finset.subset_union_left
      · have herase := Finset.card_erase_of_mem hro
        have hne : (st.absReadOnlyFnames.erase fp).Nonempty :=
          Finset.card_pos.mp (by omega)
        exact hne.mono Finset.subset_union_right
    · simp at h

/-- A one-file session state used to instantiate theorems. -/
def stOneFile : Coder := {
  files := [("a.py", "x=1\nx=1\nx=1\n")]
  absFnames := {"a.py"}
  absReadOnlyFnames := ∅
  recentlyRemoved := []
  changeTracker := ChangeTracker.empty
  aiderEditedFiles := ∅
  maxFilesPerGlob := defaultMaxFilesPerGlob
  allFiles := ["a.py"]
  mtimes := []
  localToolNames := [] }

/-- Witness for C6: in a session whose only context file is the editable
`a.py`, removing `a.py` is refused and the state is unchanged. -/
theorem last_file_protection_witness :
    Remove.run stOneFile "a.py" = (stOneFile, "Cannot remove - last file in context") :=
  last_file_protection.1 stOneFile "a.py" (by decide) (by decide)

/-- The `deletelines` branch of the dispatch chain evaluates the
undefined name `_execute_deletelines` and therefore raises, whatever the
arguments. -/
theorem dispatchOne_deletelines_raises (g : String → String → Bool) (st : Coder)
    (tool_name : String) (params : Params) :
    dispatchOne g st "deletelines" tool_name params = .error deletelinesNameError := rfl

/-- C8: Mismatched delete-range handler name.  The dispatcher's
`deletelines` branch refers to `_execute_deletelines` while the module
imports `_execute_delete_lines`, so every dispatched `DeleteLines` call
raises a `NameError` before `DeleteLines.run` can be invoked: the state
(files, ledger, context sets) is returned untouched and the call's single
ToolResponse carries the error text instead of a deletion result. -/
theorem deletelines_dispatch_undefined :
    (∀ (g : String → String → Bool) (st : Coder) (tool_name : String) (params : Params),
      dispatchOne g st "deletelines" tool_name params = .error deletelinesNameError) ∧
    (∀ (g : String → String → Bool) (st : Coder) (tc : ToolCall),
      strToLower tc.name = "deletelines" →
      parsedArgsList tc ≠ [] →
      processToolCall g st tc =
        (st, ⟨tc.id, tc.name, s!"Error executing {tc.name}: {deletelinesNameError}"⟩)) := by
  refine ⟨fun g st tool_name params => dispatchOne_deletelines_raises g st tool_name params,
    fun g st tc hname hne => ?_⟩
  obtain ⟨p, ps, hp⟩ := List.exists_cons_of_ne_nil hne
  simp only [processToolCall, hp, runFragments, hname, dispatchOne_deletelines_raises]

/-- Witness for C8: a concrete `DeleteLines` tool call with valid
arguments yields the `NameError` response and leaves the state
untouched. -/
theorem deletelines_dispatch_undefined_witness :
    processToolCall (fun _ _ => false) stOneFile
        ⟨"call1", "DeleteLines",
          "\x7b\"file_path\": \"a.py\", \"start_line\": 1, \"end_line\": 1\x7d"⟩ =
      (stOneFile, ⟨"call1", "DeleteLines",
        s!"Error executing DeleteLines: {deletelinesNameError}"⟩) := by
  have h := deletelines_dispatch_undefined.2 (fun _ _ => false) stOneFile
    ⟨"call1", "DeleteLines",
      "\x7b\"file_path\": \"a.py\", \"start_line\": 1, \"end_line\": 1\x7d"⟩
    (by decide) (by decide)
  exact h

/-- C2: No-op idempotence.  For each edit operation in the corpus
(`ReplaceText`, `DeleteLines`, `ReplaceLine`, `ReplaceAll`), whenever the
computed new content is byte-identical to the original file content the
operation returns the "no changes made" warning string and the state —
filesystem and ledger included — is returned unchanged (no write, no
ledger entry). -/
theorem noop_edit_idempotence :
    (∀ (st : Coder) (fp ft rt : String) (near : Option String) (k : Int)
        (cid : Option String) (dry : Bool) (A : String) (t : Nat),
      validateFileForEdit st fp = .ok A →
      findOccurrences A ft near ≠ [] →
      selectOccurrence k (findOccurrences A ft near).length ft near fp = .ok t →
      strTake A ((findOccurrences A ft near).getD t 0) ++ rt ++
        strDrop A ((findOccurrences A ft near).getD t 0 + ft.toList.length) = A →
      ReplaceText.run st fp ft rt near k cid dry =
        (st, "Warning: No changes made (replacement identical to original)")) ∧
    (∀ (st : Coder) (fp : String) (s e : Int) (cid : Option String) (dry : Bool)
        (A : String),
      st.files.read fp = some A →
      fp ∈ st.absFnames →
      ¬ (s < 1 ∨ s > ((splitlines A).length : Int)) →
      ¬ (e < 1 ∨ e > ((splitlines A).length : Int)) →
      ¬ s > e →
      joinNl ((splitlines A).take (s - 1).toNat ++
        (splitlines A).drop ((e - 1).toNat + 1)) = A →
      DeleteLines.run st fp s e cid dry =
        (st, s!"Warning: No changes made (deleting lines" ++
          s!" {s}-{e} would not change file)")) ∧
    (∀ (st : Coder) (fp : String) (ln : Int) (nc : String) (cid : Option String)
        (dry : Bool) (A : String),
      st.files.read fp = some A →
      fp ∈ st.absFnames →
      ¬ (ln - 1 < 0 ∨ ln - 1 ≥ ((splitlines A).length : Int)) →
      joinNl ((splitlines A).set (ln - 1).toNat nc) = A →
      ReplaceLine.run st fp ln nc cid dry =
        (st, "Warning: No changes made (new content identical to original)")) ∧
    (∀ (st : Coder) (fp ft rt : String) (cid : Option String) (dry : Bool)
        (A : String),
      validateFileForEdit st fp = .ok A →
      pyCount A ft ≠ 0 →
      pyReplace A ft rt = A →
      ReplaceAll.run st fp ft rt cid dry =
        (st, "Warning: No changes made (replacement identical to original)")) := by
  refine ⟨?_, ?_, ?_, ?_⟩
  · intro st fp ft rt near k cid dry A t hv hocc hsel hnoop
    simp only [ReplaceText.run]
    rw [hv]
    simp only [if_neg hocc]
    rw [hsel]
    simp only [if_pos hnoop.symm]
  · intro st fp s e cid dry A hread hed hs he hse hnoop
    simp only [DeleteLines.run]
    rw [hread]
    dsimp only
    rw [if_neg (not_not_intro hed), if_neg hs, if_neg he, if_neg hse, if_pos hnoop.symm]
  · intro st fp ln nc cid dry A hread hed hidx hnoop
    simp only [ReplaceLine.run]
    rw [hread]
    dsimp only
    rw [if_neg (not_not_intro hed), if_neg hidx, if_pos hnoop.symm]
  · intro st fp ft rt cid dry A hv hcount hnoop
    simp only [ReplaceAll.run]
    rw [hv]
    simp only [if_neg hcount, if_pos hnoop.symm]

/-- The `toString` of a string is itself (used to normalise interpolated
messages). -/
theorem toString_str (s : String) : toString s = s := rfl

/-- Unfolding of the `ReplaceLine.run` success path: a non-dry-run call
on an editable, readable file with a valid line number and a genuinely
changed result writes the rebuilt content, prepends a `ChangeRecord`
carrying the caller-supplied or generated change id, marks the file
edited and returns the success message carrying that id. -/
theorem replaceLine_run_success (st : Coder) (fp : String) (ln : Int) (nc : String)
    (cid : Option String) (A : String)
    (hread : st.files.read fp = some A)
    (hed : fp ∈ st.absFnames)
    (hidx : ¬ (ln - 1 < 0 ∨ ln - 1 ≥ ((splitlines A).length : Int)))
    (hne : joinNl ((splitlines A).set (ln - 1).toNat nc) ≠ A) :
    ReplaceLine.run st fp ln nc cid false =
      (let lines := splitlines A
       let idx := (ln - 1).toNat
       let B := joinNl (lines.set idx nc)
       let c := cid.getD ("change_" ++ toString st.changeTracker.nextId)
       let ol := lines.getD idx ""
       let diff := replaceLineDiff ln ol nc
       ({ st with
          files := st.files.write fp B
          changeTracker := ⟨⟨c, fp, "replaceline", A, B, false⟩ ::
            st.changeTracker.changes, st.changeTracker.nextId + 1⟩
          aiderEditedFiles := insert fp st.aiderEditedFiles },
        replaceLineSuccessMsg ln c diff)) := by
  simp only [ReplaceLine.run]
  rw [hread]
  dsimp only
  rw [if_neg (not_not_intro hed), if_neg hidx, if_neg (fun h => hne h.symm)]
  simp only [Bool.false_eq_true, if_false, ChangeTracker.track_change]

/-- C9: Edit atomicity of write plus ledger record, shown for
`ReplaceLine.run` (the corpus edit tool that calls
`change_tracker.track_change` directly).  A non-dry-run, non-no-op edit
that succeeds writes the rebuilt content, creates a ledger record under
the caller-supplied id if one was given (otherwise the newly generated
id), and returns the success message carrying exactly that change id —
never a success with a written file but no tracked change.  (The ledger
is modelled from the spec, §4.3, under which `track` is total.) -/
theorem edit_write_ledger_atomicity (st : Coder) (fp : String) (ln : Int)
    (nc : String) (cid : Option String) (A : String)
    (hread : st.files.read fp = some A)
    (hed : fp ∈ st.absFnames)
    (hidx : ¬ (ln - 1 < 0 ∨ ln - 1 ≥ ((splitlines A).length : Int)))
    (hne : joinNl ((splitlines A).set (ln - 1).toNat nc) ≠ A) :
    (ReplaceLine.run st fp ln nc cid false).1.files.read fp =
      some (joinNl ((splitlines A).set (ln - 1).toNat nc)) ∧
    (ReplaceLine.run st fp ln nc cid false).1.changeTracker.get_change
        (cid.getD ("change_" ++ toString st.changeTracker.nextId)) =
      some ⟨cid.getD ("change_" ++ toString st.changeTracker.nextId), fp, "replaceline",
        A, joinNl ((splitlines A).set (ln - 1).toNat nc), false⟩ ∧
    (∀ c0, cid = some c0 →
      cid.getD ("change_" ++ toString st.changeTracker.nextId) = c0) ∧
    (ReplaceLine.run st fp ln nc cid false).2 =
      replaceLineSuccessMsg ln (cid.getD ("change_" ++ toString st.changeTracker.nextId))
        (replaceLineDiff ln ((splitlines A).getD (ln - 1).toNat "") nc) := by
  rw [replaceLine_run_success st fp ln nc cid A hread hed hidx hne]
  refine ⟨?_, ?_, ?_, rfl⟩
  · simp [FileMap.read, FileMap.write, List.lookup]
  · simp [ChangeTracker.get_change, List.find?]
  · intro c0 hc; simp [hc]

/-- C1: Undo round-trip.  A successful non-dry-run `ReplaceLine` edit
records a change id `c` taking `fp` from content `A` to `B`; invoking
`UndoChange` with `c` restores `fp` to exactly `A` and marks the record
reverted, and a second `UndoChange` with the same `c` fails with the
already-reverted error, leaving the state unchanged, rather than silently
succeeding or re-applying.  (The ledger is modelled from the spec,
§4.3.) -/
theorem undo_round_trip (st : Coder) (fp : String) (ln : Int) (nc : String)
    (cid : Option String) (A : String)
    (hread : st.files.read fp = some A)
    (hed : fp ∈ st.absFnames)
    (hidx : ¬ (ln - 1 < 0 ∨ ln - 1 ≥ ((splitlines A).length : Int)))
    (hne : joinNl ((splitlines A).set (ln - 1).toNat nc) ≠ A) :
    (ReplaceLine.run st fp ln nc cid false).1.files.read fp =
      some (joinNl ((splitlines A).set (ln - 1).toNat nc)) ∧
    (UndoChange.run (ReplaceLine.run st fp ln nc cid false).1
        (some (cid.getD ("change_" ++ toString st.changeTracker.nextId))) none).2 =
      undoSuccessMsg "replaceline"
        (cid.getD ("change_" ++ toString st.changeTracker.nextId)) ∧
    (UndoChange.run (ReplaceLine.run st fp ln nc cid false).1
        (some (cid.getD ("change_" ++ toString st.changeTracker.nextId))) none).1.files.read
        fp = some A ∧
    ((UndoChange.run (ReplaceLine.run st fp ln nc cid false).1
        (some (cid.getD ("change_" ++ toString st.changeTracker.nextId))) none).1.changeTracker.get_change
        (cid.getD ("change_" ++ toString st.changeTracker.nextId))).map (fun r => r.reverted) =
      some true ∧
    UndoChange.run
        (UndoChange.run (ReplaceLine.run st fp ln nc cid false).1
          (some (cid.getD ("change_" ++ toString st.changeTracker.nextId))) none).1
        (some (cid.getD ("change_" ++ toString st.changeTracker.nextId))) none =
      ((UndoChange.run (ReplaceLine.run st fp ln nc cid false).1
          (some (cid.getD ("change_" ++ toString st.changeTracker.nextId))) none).1,
        undoErrorMsg ("Change '" ++
          cid.getD ("change_" ++ toString st.changeTracker.nextId) ++
          "' has already been reverted")) := by
  rw [replaceLine_run_success st fp ln nc cid A hread hed hidx hne]
  refine ⟨?_, ?_, ?_, ?_, ?_⟩ <;>
    simp [UndoChange.run, ChangeTracker.undo_change, ChangeTracker.get_change,
      FileMap.read, FileMap.write, List.find?, List.lookup]

/-- Witness for C9: a concrete successful `ReplaceLine` writes the new
content, records `change_0` with full before/after snapshots, and its
message carries `change_0`. -/
theorem edit_write_ledger_atomicity_witness :
    (ReplaceLine.run stOneFile "a.py" 2 "y=2" none false).1.files.read "a.py" =
      some "x=1\ny=2\nx=1" ∧
    (ReplaceLine.run stOneFile "a.py" 2 "y=2" none false).1.changeTracker.get_change
        "change_0" =
      some ⟨"change_0", "a.py", "replaceline", "x=1\nx=1\nx=1\n", "x=1\ny=2\nx=1", false⟩ ∧
    (ReplaceLine.run stOneFile "a.py" 2 "y=2" none false).2 =
      "Successfully replaced line 2 (change_id: change_0). Diff:\nLine 2:\n- x=1\n+ y=2" := by
  have h := edit_write_ledger_atomicity stOneFile "a.py" 2 "y=2" none "x=1\nx=1\nx=1\n"
    (by decide) (by decide) (by decide) (by decide)
  exact ⟨h.1, h.2.1, h.2.2.2⟩

/-- Witness for C1: after a concrete `ReplaceLine` edit, undoing
`change_0` restores the original three-line content, and a second undo of
`change_0` fails with the already-reverted error. -/
theorem undo_round_trip_witness :
    (UndoChange.run (ReplaceLine.run stOneFile "a.py" 2 "y=2" none false).1
        (some "change_0") none).1.files.read "a.py" = some "x=1\nx=1\nx=1\n" ∧
    (UndoChange.run (ReplaceLine.run stOneFile "a.py" 2 "y=2" none false).1
        (some "change_0") none).2 =
      "Successfully undid replaceline change 'change_0'." ∧
    (UndoChange.run
        (UndoChange.run (ReplaceLine.run stOneFile "a.py" 2 "y=2" none false).1
          (some "change_0") none).1 (some "change_0") none).2 =
      "Error: Change 'change_0' has already been reverted" := by
  have h := undo_round_trip stOneFile "a.py" 2 "y=2" none "x=1\nx=1\nx=1\n"
    (by decide) (by decide) (by decide) (by decide)
  exact ⟨h.2.2.1, h.2.1, congrArg Prod.snd h.2.2.2.2⟩

/-- A match of `ft` at offset `i` of `A` lets `A` be reconstructed as the
part before the match, the match, and the part after it. -/
theorem matchesAt_reconstruct (A ft : String) (i : Nat)
    (h : matchesAt A ft i = true) :
    A.toList = A.toList.take i ++ ft.toList ++ A.toList.drop (i + ft.toList.length) := by
  have hpre : ft.toList <+: A.toList.drop i := by
    simpa [matchesAt, List.isPrefixOf_iff_prefix] using h
  obtain ⟨t, ht⟩ := hpre
  have hdrop : A.toList.drop (i + ft.toList.length) = t := by
    have h2 := congrArg (List.drop ft.toList.length) ht
    rw [List.drop_left] at h2
    rw [List.drop_drop] at h2
    rw [← h2]
  rw [hdrop, List.append_assoc, ht, List.take_append_drop]

/-- Replacing a matched occurrence by text different from the search text
changes the content. -/
theorem replace_ne_of_ne (A ft rt : String) (i : Nat)
    (hm : matchesAt A ft i = true) (hne : rt ≠ ft) :
    strTake A i ++ rt ++ strDrop A (i + ft.toList.length) ≠ A := by
  intro he
  apply hne
  have hrec := matchesAt_reconstruct A ft i hm
  have hdata : A.toList.take i ++ rt.toList ++ A.toList.drop (i + ft.toList.length) =
      A.toList := by
    have := congrArg String.data he
    simpa [strTake, strDrop, String.data_append] using this
  have h4 := hdata.trans hrec
  rw [List.append_assoc, List.append_assoc] at h4
  have h2 : rt.toList ++ A.toList.drop (i + ft.toList.length) =
      ft.toList ++ A.toList.drop (i + ft.toList.length) :=
    List.append_cancel_left h4
  have h3 : rt.toList = ft.toList := List.append_cancel_right h2
  exact String.ext h3

/-- The occurrence list of a `none` near-context search is the filtered
ascending range of match offsets. -/
theorem findOccurrences_none (A ft : String) :
    findOccurrences A ft none =
      (List.range (A.toList.length + 1 - ft.toList.length)).filter
        fun i => matchesAt A ft i := rfl

/-- A selected occurrence is a member of the occurrence list. -/
theorem getD_mem_of_lt {l : List Nat} {t : Nat} (h : t < l.length) :
    l.getD t 0 ∈ l := by
  rw [List.getD_eq_getElem l 0 h]
  exact List.getElem_mem h

/-- Unfolding of the `ReplaceText.run` success path for a selected
occurrence: the content around the selected offset is rewritten and the
file updated. -/
theorem replaceText_run_selected (st : Coder) (fp ft rt : String) (k : Int)
    (cid : Option String) (A : String) (t : Nat)
    (hv : validateFileForEdit st fp = .ok A)
    (hocc : findOccurrences A ft none ≠ [])
    (hsel : selectOccurrence k (findOccurrences A ft none).length ft none fp = .ok t)
    (ht : t < (findOccurrences A ft none).length)
    (hne : rt ≠ ft) :
    (ReplaceText.run st fp ft rt none k cid false).1.files.read fp =
      some (strTake A ((findOccurrences A ft none).getD t 0) ++ rt ++
        strDrop A ((findOccurrences A ft none).getD t 0 + ft.toList.length)) := by
  have hmem : (findOccurrences A ft none).getD t 0 ∈ findOccurrences A ft none :=
    getD_mem_of_lt ht
  have hmatch : matchesAt A ft ((findOccurrences A ft none).getD t 0) = true := by
    have := hmem
    rw [findOccurrences_none] at this
    exact (List.mem_filter.mp this).2
  have hnoop := replace_ne_of_ne A ft rt ((findOccurrences A ft none).getD t 0)
    hmatch hne
  simp only [ReplaceText.run]
  rw [hv]
  simp only [if_neg hocc]
  rw [hsel]
  simp only [if_neg (Ne.symm hnoop), Bool.false_eq_true, if_false, applyChange,
    ChangeTracker.track_change]
  simp [FileMap.read, FileMap.write, List.lookup]

/-- C3: Occurrence selection is deterministic and 1-based.
`_find_occurrences` returns the strictly ascending list of all match
offsets, so its `k`-th element is the `k`-th match in textual order;
`ReplaceText` with `occurrence = k` (`1 ≤ k ≤ n`) rewrites exactly the
`k`-th match, `occurrence = -1` rewrites the last, and any other value
outside `1..n` returns the out-of-range error naming how many occurrences
were found (`occurrenceOutOfRangeMsg` spells out
`"... Found {n} occurrences ..."`).  Determinism over repeated invocation
is immediate: the embedded `run` is a pure function of the state and
arguments. -/
theorem occurrence_selection (st : Coder) (fp ft rt : String) (k : Int) (A : String)
    (hv : validateFileForEdit st fp = .ok A) :
    (findOccurrences A ft none).Sorted (· < ·) ∧
    (∀ i, i ∈ findOccurrences A ft none ↔
      (i + ft.toList.length ≤ A.toList.length ∧ matchesAt A ft i = true)) ∧
    (∀ cid : Option String, 1 ≤ k → k ≤ ((findOccurrences A ft none).length : Int) →
      rt ≠ ft →
      (ReplaceText.run st fp ft rt none k cid false).1.files.read fp =
        some (strTake A ((findOccurrences A ft none).getD (k.toNat - 1) 0) ++ rt ++
          strDrop A ((findOccurrences A ft none).getD (k.toNat - 1) 0 +
            ft.toList.length))) ∧
    (∀ cid : Option String, findOccurrences A ft none ≠ [] → rt ≠ ft →
      (ReplaceText.run st fp ft rt none (-1) cid false).1.files.read fp =
        some (strTake A
            ((findOccurrences A ft none).getD ((findOccurrences A ft none).length - 1) 0)
          ++ rt ++
          strDrop A
            ((findOccurrences A ft none).getD ((findOccurrences A ft none).length - 1) 0 +
              ft.toList.length))) ∧
    (∀ (cid : Option String) (dry : Bool), findOccurrences A ft none ≠ [] →
      k ≠ -1 → ¬ (1 ≤ k ∧ k ≤ ((findOccurrences A ft none).length : Int)) →
      ReplaceText.run st fp ft rt none k cid dry =
        (st, handleToolError
          (occurrenceOutOfRangeMsg k (findOccurrences A ft none).length ft none fp))) := by
  refine ⟨?_, ?_, ?_, ?_, ?_⟩
  · rw [findOccurrences_none]
    exact (List.pairwise_lt_range _).filter _
  · intro i
    rw [findOccurrences_none]
    simp only [List.mem_filter, List.mem_range]
    constructor
    · rintro ⟨h1, h2⟩
      exact ⟨by omega, h2⟩
    · rintro ⟨h1, h2⟩
      exact ⟨by omega, h2⟩
  · intro cid h1 h2 hne
    have hlen : 0 < (findOccurrences A ft none).length := by omega
    have hocc : findOccurrences A ft none ≠ [] := by
      intro h
      rw [h] at h2
      simp at h2
      omega
    have hsel : selectOccurrence k (findOccurrences A ft none).length ft none fp =
        .ok (k.toNat - 1) := by
      rw [selectOccurrence, if_neg (by omega), if_pos ⟨h1, h2⟩]
    exact replaceText_run_selected st fp ft rt k cid A (k.toNat - 1) hv hocc hsel
      (by omega) hne
  · intro cid hocc hne
    have hlen : 0 < (findOccurrences A ft none).length := List.length_pos.mpr hocc
    have hsel : selectOccurrence (-1) (findOccurrences A ft none).length ft none fp =
        .ok ((findOccurrences A ft none).length - 1) := by
      rw [selectOccurrence, if_pos rfl]
    exact replaceText_run_selected st fp ft rt (-1) cid A
      ((findOccurrences A ft none).length - 1) hv hocc hsel (by omega) hne
  · intro cid dry hocc hk hout
    have hsel : selectOccurrence k (findOccurrences A ft none).length ft none fp =
        .error (occurrenceOutOfRangeMsg k (findOccurrences A ft none).length ft
          none fp) := by
      rw [selectOccurrence, if_neg hk, if_neg hout]
    simp only [ReplaceText.run]
    rw [hv]
    simp only [if_neg hocc]
    rw [hsel]

/-- The `"ab ab ab"` state of the spec's occurrence-determinism
property. -/
def stAb : Coder := {
  files := [("c.py", "ab ab ab")]
  absFnames := {"c.py"}
  absReadOnlyFnames := ∅
  recentlyRemoved := []
  changeTracker := ChangeTracker.empty
  aiderEditedFiles := ∅
  maxFilesPerGlob := defaultMaxFilesPerGlob
  allFiles := ["c.py"]
  mtimes := []
  localToolNames := [] }

/-- Witness for C3: in `"ab ab ab"`, `occurrence=2` rewrites the middle
`ab`, `occurrence=-1` the last, and `occurrence=5` yields the error
naming the three occurrences found. -/
theorem occurrence_selection_witness :
    (ReplaceText.run stAb "c.py" "ab" "XY" none 2 none false).1.files.read "c.py" =
      some "ab XY ab" ∧
    (ReplaceText.run stAb "c.py" "ab" "XY" none (-1) none false).1.files.read "c.py" =
      some "ab ab XY" ∧
    ReplaceText.run stAb "c.py" "ab" "XY" none 5 none false =
      (stAb,
        "Error: Occurrence number 5 is out of range. Found 3 occurrences of 'ab' in 'c.py'.") ∧
    strContains
      "Error: Occurrence number 5 is out of range. Found 3 occurrences of 'ab' in 'c.py'."
      "Found 3 occurrences" = true := by
  have h2 := occurrence_selection stAb "c.py" "ab" "XY" 2 "ab ab ab" (by decide)
  have h5 := occurrence_selection stAb "c.py" "ab" "XY" 5 "ab ab ab" (by decide)
  refine ⟨?_, ?_, ?_, by decide⟩
  · exact h2.2.2.1 none (by decide) (by decide) (by decide)
  · exact h2.2.2.2.1 none (by decide) (by decide)
  · exact h5.2.2.2.2 none false (by decide) (by decide) (by decide)

/-- Unfolding of the `DeleteLines.run` success path. -/
theorem deleteLines_run_success (st : Coder) (fp : String) (s e : Int)
    (cid : Option String) (A : String)
    (hread : st.files.read fp = some A)
    (hed : fp ∈ st.absFnames)
    (hs : ¬ (s < 1 ∨ s > ((splitlines A).length : Int)))
    (he : ¬ (e < 1 ∨ e > ((splitlines A).length : Int)))
    (hse : ¬ s > e)
    (hne : joinNl ((splitlines A).take (s - 1).toNat ++
      (splitlines A).drop ((e - 1).toNat + 1)) ≠ A) :
    DeleteLines.run st fp s e cid false =
      (let lines := splitlines A
       let new_lines := lines.take (s - 1).toNat ++ lines.drop ((e - 1).toNat + 1)
       let B := joinNl new_lines
       let c := cid.getD ("change_" ++ toString st.changeTracker.nextId)
       let diff := generateUnifiedDiffSnippet A B fp
       let nd := (e - 1).toNat - (s - 1).toNat + 1
       ({ st with
          files := st.files.write fp B
          changeTracker := ⟨⟨c, fp, "deletelines", A, B, false⟩ ::
            st.changeTracker.changes, st.changeTracker.nextId + 1⟩
          aiderEditedFiles := insert fp st.aiderEditedFiles },
        formatToolResult "DeleteLines" s!"Deleted {nd} lines ({s}-{e}) in {fp}"
          (some c) diff)) := by
  simp only [DeleteLines.run]
  rw [hread]
  dsimp only
  rw [if_neg (not_not_intro hed), if_neg hs, if_neg he, if_neg hse,
    if_neg (fun h => hne h.symm)]
  simp only [Bool.false_eq_true, if_false, applyChange, ChangeTracker.track_change]

/-- The last character of a `"\n"`-join is the last character of the last
(nonempty) joined piece. -/
theorem joinNlL_getLast? : ∀ (ll : List (List Char)) (lst : List Char),
    ll.getLast? = some lst → lst ≠ [] → (joinNlL ll).getLast? = lst.getLast?
  | [], lst => by simp
  | [x], lst => by
    intro hl _
    simp only [List.getLast?_singleton, Option.some.injEq] at hl
    subst hl
    rfl
  | x :: y :: rest, lst => by
    intro hl hne
    have htail : (y :: rest).getLast? = some lst := by
      simpa [List.getLast?_cons_cons] using hl
    have ih := joinNlL_getLast? (y :: rest) lst htail hne
    obtain ⟨c, hc⟩ : ∃ c, lst.getLast? = some c := by
      cases h : lst.getLast? with
      | none => exact absurd (List.getLast?_eq_none_iff.mp h) hne
      | some c => exact ⟨c, rfl⟩
    have hJ : joinNlL (y :: rest) ≠ [] := by
      intro h0
      rw [h0] at ih
      rw [hc] at ih
      simp at ih
    show (x ++ '\n' :: joinNlL (y :: rest)).getLast? = lst.getLast?
    rw [List.getLast?_append]
    have hmid : ('\n' :: joinNlL (y :: rest)).getLast? = lst.getLast? := by
      cases hJ' : joinNlL (y :: rest) with
      | nil => exact absurd hJ' hJ
      | cons a as =>
        rw [hJ'] at ih
        rw [List.getLast?_cons_cons]
        exact ih
    rw [hmid, hc]
    rfl

/-- A `"\n"`-join does not end in a newline when the final joined line is
nonempty and does not itself end in one. -/
theorem endsWithNl_joinNl (lines : List String)
    (h : ∀ s, lines.getLast? = some s → s ≠ "" ∧ endsWithNl s = false) :
    endsWithNl (joinNl lines) = false := by
  cases hl : lines.getLast? with
  | none =>
    have : lines = [] := List.getLast?_eq_none_iff.mp hl
    subst this
    rfl
  | some s =>
    obtain ⟨hs1, hs2⟩ := h s hl
    have hmap : (lines.map String.toList).getLast? = some s.toList := by
      rw [List.getLast?_map, hl]
      rfl
    have hlst : s.toList ≠ [] := by
      intro h0
      exact hs1 (String.ext h0)
    have hjoin := joinNlL_getLast? (lines.map String.toList) s.toList hmap hlst
    have hgoal : (joinNl lines).toList.getLast? = s.toList.getLast? := hjoin
    simp only [endsWithNl] at hs2 ⊢
    rw [hgoal]
    exact hs2

/-- The state of the C10 counterexample: `f.py` holds `"a\n\nb\n"`. -/
def stC10 : Coder := {
  files := [("f.py", "a\n\nb\n")]
  absFnames := {"f.py"}
  absReadOnlyFnames := ∅
  recentlyRemoved := []
  changeTracker := ChangeTracker.empty
  aiderEditedFiles := ∅
  maxFilesPerGlob := defaultMaxFilesPerGlob
  allFiles := ["f.py"]
  mtimes := []
  localToolNames := [] }

/-- Counterexample to C10 as stated: on `"a\n\nb\n"` (which ends with a
newline), a successful `DeleteLines` of line 3 leaves `["a", ""]`, whose
newline-join `"a\n"` DOES end with a newline — refuting the claim's
unconditional "the resulting file content does not end with a newline"
(here the remaining final line is empty). -/
theorem trailing_newline_counterexample :
    endsWithNl "a\n\nb\n" = true ∧
    (DeleteLines.run stC10 "f.py" 3 3 none false).2 =
      "Deleted 1 lines (3-3) in f.py (change_id: change_0)\nDiff snippet:\n[diff of f.py: 5 -> 2 chars]" ∧
    (DeleteLines.run stC10 "f.py" 3 3 none false).1.files.read "f.py" = some "a\n" ∧
    endsWithNl "a\n" = true := by
  refine ⟨by decide, by decide, by decide, by decide⟩

/-- C10 (amended): a successful `DeleteLines` or `ReplaceLine` rebuilds
the file as the newline-join of `splitlines()`, and the result does not
end with a newline provided the resulting final line is nonempty and does
not itself end with a newline (for `DeleteLines` the latter always holds;
for `ReplaceLine` the supplied replacement can violate either); in
particular an original trailing newline is dropped. -/
theorem trailing_newline_amended :
    (∀ (st : Coder) (fp : String) (s e : Int) (cid : Option String) (A : String),
      st.files.read fp = some A →
      fp ∈ st.absFnames →
      ¬ (s < 1 ∨ s > ((splitlines A).length : Int)) →
      ¬ (e < 1 ∨ e > ((splitlines A).length : Int)) →
      ¬ s > e →
      joinNl ((splitlines A).take (s - 1).toNat ++
        (splitlines A).drop ((e - 1).toNat + 1)) ≠ A →
      endsWithNl A = true →
      (∀ s', ((splitlines A).take (s - 1).toNat ++
          (splitlines A).drop ((e - 1).toNat + 1)).getLast? = some s' →
        s' ≠ "" ∧ endsWithNl s' = false) →
      (DeleteLines.run st fp s e cid false).1.files.read fp =
        some (joinNl ((splitlines A).take (s - 1).toNat ++
          (splitlines A).drop ((e - 1).toNat + 1))) ∧
      endsWithNl (joinNl ((splitlines A).take (s - 1).toNat ++
        (splitlines A).drop ((e - 1).toNat + 1))) = false) ∧
    (∀ (st : Coder) (fp : String) (ln : Int) (nc : String) (cid : Option String)
        (A : String),
      st.files.read fp = some A →
      fp ∈ st.absFnames →
      ¬ (ln - 1 < 0 ∨ ln - 1 ≥ ((splitlines A).length : Int)) →
      joinNl ((splitlines A).set (ln - 1).toNat nc) ≠ A →
      endsWithNl A = true →
      (∀ s', ((splitlines A).set (ln - 1).toNat nc).getLast? = some s' →
        s' ≠ "" ∧ endsWithNl s' = false) →
      (ReplaceLine.run st fp ln nc cid false).1.files.read fp =
        some (joinNl ((splitlines A).set (ln - 1).toNat nc)) ∧
      endsWithNl (joinNl ((splitlines A).set (ln - 1).toNat nc)) = false) := by
  constructor
  · intro st fp s e cid A hread hed hs he hse hne _ hlast
    rw [deleteLines_run_success st fp s e cid A hread hed hs he hse hne]
    exact ⟨by simp [FileMap.read, FileMap.write, List.lookup],
      endsWithNl_joinNl _ hlast⟩
  · intro st fp ln nc cid A hread hed hidx hne _ hlast
    rw [replaceLine_run_success st fp ln nc cid A hread hed hidx hne]
    exact ⟨by simp [FileMap.read, FileMap.write, List.lookup],
      endsWithNl_joinNl _ hlast⟩

/-- Witness for C10 (amended): deleting line 2 of `"a\nb\nc\n"` yields
`"a\nc"`, and replacing line 2 of `"a\nb\n"` by `"x"` yields `"a\nx"` —
both newline-terminated originals lose the trailing newline. -/
theorem trailing_newline_amended_witness :
    (DeleteLines.run {
        files := [("g.py", "a\nb\nc\n")]
        absFnames := {"g.py"}
        absReadOnlyFnames := ∅
        recentlyRemoved := []
        changeTracker := ChangeTracker.empty
        aiderEditedFiles := ∅
        maxFilesPerGlob := defaultMaxFilesPerGlob
        allFiles := ["g.py"]
        mtimes := []
        localToolNames := [] } "g.py" 2 2 none false).1.files.read "g.py" =
      some "a\nc" ∧
    (ReplaceLine.run stC10 "f.py" 3 "x" none false).1.files.read "f.py" =
      some "a\n\nx" ∧
    endsWithNl "a\nc" = false ∧ endsWithNl "a\n\nx" = false := by
  have h1 := trailing_newline_amended.1 {
    files := [("g.py", "a\nb\nc\n")]
    absFnames := {"g.py"}
    absReadOnlyFnames := ∅
    recentlyRemoved := []
    changeTracker := ChangeTracker.empty
    aiderEditedFiles := ∅
    maxFilesPerGlob := defaultMaxFilesPerGlob
    allFiles := ["g.py"]
    mtimes := []
    localToolNames := [] } "g.py" 2 2 none "a\nb\nc\n"
    (by decide) (by decide) (by decide) (by decide) (by decide) (by decide)
    (by decide) (by decide)
  have h2 := trailing_newline_amended.2 stC10 "f.py" 3 "x" none "a\n\nb\n"
    (by decide) (by decide) (by decide) (by decide) (by decide) (by decide)
  exact ⟨h1.1, h2.1, by decide, by decide⟩

/-- Folding `_add_file_to_context` over a file list leaves the editable
set unchanged and grows the read-only set by exactly the folded files not
already editable. -/
theorem addFileToContext_foldl : ∀ (fs : List String) (st : Coder),
    ((fs.foldl addFileToContext st).absFnames = st.absFnames) ∧
    (∀ f, f ∈ (fs.foldl addFileToContext st).absReadOnlyFnames ↔
      f ∈ st.absReadOnlyFnames ∨ (f ∈ fs ∧ f ∉ st.absFnames))
  | [], st => by simp
  | a :: rest, st => by
    simp only [List.foldl_cons]
    obtain ⟨ih1, ih2⟩ := addFileToContext_foldl rest (addFileToContext st a)
    by_cases hin : a ∈ st.absFnames ∨ a ∈ st.absReadOnlyFnames
    · rw [addFileToContext, if_pos hin] at ih1 ih2 ⊢
      refine ⟨ih1, fun f => ?_⟩
      rw [ih2 f]
      constructor
      · rintro (h | ⟨h1, h2⟩)
        · exact Or.inl h
        · exact Or.inr ⟨List.mem_cons_of_mem _ h1, h2⟩
      · rintro (h | ⟨h1, h2⟩)
        · exact Or.inl h
        · rcases List.mem_cons.mp h1 with rfl | h1'
          · rcases hin with ha | ha
            · exact absurd ha h2
            · exact Or.inl ha
          · exact Or.inr ⟨h1', h2⟩
    · rw [addFileToContext, if_neg hin] at ih1 ih2 ⊢
      push_neg at hin
      refine ⟨ih1, fun f => ?_⟩
      rw [ih2 f]
      constructor
      · rintro (h | ⟨h1, h2⟩)
        · rcases Finset.mem_insert.mp h with rfl | h'
          · exact Or.inr ⟨List.mem_cons_self _ _, hin.1⟩
          · exact Or.inl h'
        · exact Or.inr ⟨List.mem_cons_of_mem _ h1, h2⟩
      · rintro (h | ⟨h1, h2⟩)
        · exact Or.inl (Finset.mem_insert_of_mem h)
        · rcases List.mem_cons.mp h1 with rfl | h1'
          · exact Or.inl (Finset.mem_insert_self _ _)
          · exact Or.inr ⟨h1', h2⟩

/-- Unfolding of the over-cap branch of `ViewFilesAtGlob.run`. -/
theorem viewFilesAtGlob_run_capped (g : String → String → Bool) (st : Coder)
    (pattern : String)
    (hslash : startsWithSlash pattern = false)
    (hcap : (st.allFiles.filter fun f => g f pattern).length > st.maxFilesPerGlob)
    (hcappos : 0 < st.maxFilesPerGlob) :
    ViewFilesAtGlob.run g st pattern =
      (let sorted := (st.allFiles.filter fun f => g f pattern).insertionSort
          fun a b => st.mtime b ≤ st.mtime a
       let sel := sorted.take st.maxFilesPerGlob
       (sel.foldl addFileToContext st,
        addedFilesMsg sel.length (strJoin ", " (sel.take 5))
          (if sel.length > 5 then " and more" else ""))) := by
  have hperm := List.perm_insertionSort
    (fun a b => st.mtime b ≤ st.mtime a) (st.allFiles.filter fun f => g f pattern)
  have hlen : (((st.allFiles.filter fun f => g f pattern).insertionSort
      fun a b => st.mtime b ≤ st.mtime a).take st.maxFilesPerGlob).length =
      st.maxFilesPerGlob := by
    rw [List.length_take, hperm.length_eq]
    omega
  have hne : (((st.allFiles.filter fun f => g f pattern).insertionSort
      fun a b => st.mtime b ≤ st.mtime a).take st.maxFilesPerGlob).isEmpty = false := by
    rw [List.isEmpty_eq_false_iff_exists_mem]
    have : 0 < (((st.allFiles.filter fun f => g f pattern).insertionSort
        fun a b => st.mtime b ≤ st.mtime a).take st.maxFilesPerGlob).length := by
      omega
    obtain ⟨x, hx⟩ := List.exists_mem_of_length_pos this
    exact ⟨x, hx⟩
  simp only [ViewFilesAtGlob.run, hslash, Bool.false_eq_true, if_false]
  rw [if_pos hcap]
  simp only [hne, Bool.false_eq_true, if_false]

/-- C7 (amended): when a glob's match set exceeds the configured cap,
`ViewFilesAtGlob` adds exactly the cap-many files with the most recent
modification times (every added file's mtime is at least every omitted
matching file's), as read-only, leaving the editable set unchanged, and
its returned message reports how many files were added — the omitted
count itself is not reported (the console warning names the total match
count and the cap instead). -/
theorem glob_cap_amended (g : String → String → Bool) (st : Coder)
    (pattern : String)
    (hslash : startsWithSlash pattern = false)
    (hcap : (st.allFiles.filter fun f => g f pattern).length > st.maxFilesPerGlob)
    (hcappos : 0 < st.maxFilesPerGlob) :
    (((st.allFiles.filter fun f => g f pattern).insertionSort
        fun a b => st.mtime b ≤ st.mtime a).take st.maxFilesPerGlob).length =
      st.maxFilesPerGlob ∧
    List.Perm
      ((((st.allFiles.filter fun f => g f pattern).insertionSort
          fun a b => st.mtime b ≤ st.mtime a).take st.maxFilesPerGlob) ++
        (((st.allFiles.filter fun f => g f pattern).insertionSort
          fun a b => st.mtime b ≤ st.mtime a).drop st.maxFilesPerGlob))
      (st.allFiles.filter fun f => g f pattern) ∧
    (∀ a ∈ ((st.allFiles.filter fun f => g f pattern).insertionSort
        fun a b => st.mtime b ≤ st.mtime a).take st.maxFilesPerGlob,
      ∀ b ∈ ((st.allFiles.filter fun f => g f pattern).insertionSort
        fun a b => st.mtime b ≤ st.mtime a).drop st.maxFilesPerGlob,
      st.mtime b ≤ st.mtime a) ∧
    (ViewFilesAtGlob.run g st pattern).1.absFnames = st.absFnames ∧
    (∀ f, f ∈ (ViewFilesAtGlob.run g st pattern).1.absReadOnlyFnames ↔
      f ∈ st.absReadOnlyFnames ∨
        (f ∈ ((st.allFiles.filter fun f => g f pattern).insertionSort
          fun a b => st.mtime b ≤ st.mtime a).take st.maxFilesPerGlob ∧
          f ∉ st.absFnames)) ∧
    (ViewFilesAtGlob.run g st pattern).2 =
      addedFilesMsg st.maxFilesPerGlob
        (strJoin ", " ((((st.allFiles.filter fun f => g f pattern).insertionSort
          fun a b => st.mtime b ≤ st.mtime a).take st.maxFilesPerGlob).take 5))
        (if 5 < st.maxFilesPerGlob then " and more" else "") := by
  have hperm := List.perm_insertionSort
    (fun a b => st.mtime b ≤ st.mtime a) (st.allFiles.filter fun f => g f pattern)
  have hlen : (((st.allFiles.filter fun f => g f pattern).insertionSort
      fun a b => st.mtime b ≤ st.mtime a).take st.maxFilesPerGlob).length =
      st.maxFilesPerGlob := by
    rw [List.length_take, hperm.length_eq]
    omega
  have hrun := viewFilesAtGlob_run_capped g st pattern hslash hcap hcappos
  letI : IsTotal String (fun a b => st.mtime b ≤ st.mtime a) :=
    ⟨fun a b => le_total _ _⟩
  letI : IsTrans String (fun a b => st.mtime b ≤ st.mtime a) :=
    ⟨fun _ _ _ h1 h2 => le_trans h2 h1⟩
  have hsorted := List.sorted_insertionSort
    (fun a b => st.mtime b ≤ st.mtime a) (st.allFiles.filter fun f => g f pattern)
  refine ⟨hlen, ?_, ?_, ?_, ?_, ?_⟩
  · rw [List.take_append_drop]
    exact hperm
  · have hpw : List.Pairwise (fun a b => st.mtime b ≤ st.mtime a)
        ((((st.allFiles.filter fun f => g f pattern).insertionSort
          fun a b => st.mtime b ≤ st.mtime a).take st.maxFilesPerGlob) ++
          (((st.allFiles.filter fun f => g f pattern).insertionSort
          fun a b => st.mtime b ≤ st.mtime a).drop st.maxFilesPerGlob)) := by
      rw [List.take_append_drop]
      exact hsorted
    exact fun a ha b hb => (List.pairwise_append.mp hpw).2.2 a ha b hb
  · rw [hrun]
    exact (addFileToContext_foldl _ st).1
  · intro f
    rw [hrun]
    exact (addFileToContext_foldl _ st).2 f
  · rw [hrun]
    simp only [hlen]

/-- A repository of 60 files `f0..f59` with strictly decreasing
modification times, under the default cap of 50. -/
def stGlob : Coder := {
  files := []
  absFnames := ∅
  absReadOnlyFnames := ∅
  recentlyRemoved := []
  changeTracker := ChangeTracker.empty
  aiderEditedFiles := ∅
  maxFilesPerGlob := defaultMaxFilesPerGlob
  allFiles := (List.range 60).map fun i => "f" ++ toString i
  mtimes := (List.range 60).map fun i => ("f" ++ toString i, 100 - i)
  localToolNames := [] }

/-- Counterexample to C7 as stated: with 60 matching files and the cap of
50, ten matching files are omitted, yet the tool's returned message is
`"Added 50 files: f0, f1, f2, f3, f4 and more"` — it nowhere states the
omitted count `10` (the console warning names the total `60` and the cap
`50`, not the omitted count, and is not returned to the caller). -/
theorem glob_cap_counterexample :
    (stGlob.allFiles.filter fun f => (fun (_ _ : String) => true) f "p").length = 60 ∧
    stGlob.maxFilesPerGlob = 50 ∧
    (ViewFilesAtGlob.run (fun _ _ => true) stGlob "p").2 =
      "Added 50 files: f0, f1, f2, f3, f4 and more" ∧
    strContains (ViewFilesAtGlob.run (fun _ _ => true) stGlob "p").2 "10" = false := by
  refine ⟨by decide, rfl, by decide, by decide⟩

/-- Witness for C7 (amended): on the 60-file repository, exactly 50 files
are selected and the returned message reports the 50 added. -/
theorem glob_cap_amended_witness :
    (((stGlob.allFiles.filter fun f => (fun (_ _ : String) => true) f "p").insertionSort
        fun a b => stGlob.mtime b ≤ stGlob.mtime a).take stGlob.maxFilesPerGlob).length =
      50 ∧
    (ViewFilesAtGlob.run (fun _ _ => true) stGlob "p").1.absFnames = ∅ ∧
    (ViewFilesAtGlob.run (fun _ _ => true) stGlob "p").2 =
      "Added 50 files: f0, f1, f2, f3, f4 and more" := by
  have h := glob_cap_amended (fun _ _ => true) stGlob "p" (by decide) (by decide)
    (by decide)
  refine ⟨h.1, h.2.2.2.1, ?_⟩
  rw [h.2.2.2.2.2]
  decide

/-- The spec's reading of concatenated-argument dispatch (§3): each
parsed fragment "is executed as an independent invocation of the same
tool, in order", threading the session state; `none` when some
invocation raises. -/
def execFragmentsSpec (g : String → String → Bool) (tool_name : String) :
    List Params → Coder → Option (Coder × List String)
  | [], st => some (st, [])
  | p :: ps, st =>
    match dispatchOne g st (strToLower tool_name) tool_name p with
    | .error _ => none
    | .ok (st1, r) =>
      (execFragmentsSpec g tool_name ps st1).map fun q => (q.1, r :: q.2)

/-- The dispatcher's fragment loop refines the spec-side sequential
execution whenever no fragment raises. -/
theorem runFragments_of_spec (g : String → String → Bool) (tool_name : String) :
    ∀ (ps : List Params) (st st' : Coder) (rs : List String),
      execFragmentsSpec g tool_name ps st = some (st', rs) →
      runFragments g st (strToLower tool_name) tool_name ps = (st', .ok rs)
  | [], st, st', rs => by
    intro h
    simp only [execFragmentsSpec, Option.some.injEq, Prod.mk.injEq] at h
    rw [runFragments, h.1, h.2]
  | p :: ps, st, st', rs => by
    intro h
    simp only [execFragmentsSpec] at h
    cases hd : dispatchOne g st (strToLower tool_name) tool_name p with
    | error e => rw [hd] at h; exact absurd h (by simp)
    | ok q1 =>
      obtain ⟨st1, r⟩ := q1
      rw [hd] at h
      simp only at h
      obtain ⟨q, hq, hq2⟩ := Option.map_eq_some'.mp h
      have ih := runFragments_of_spec g tool_name ps st1 q.1 q.2 (by rw [← hq])
      rw [runFragments, hd]
      simp only [ih]
      simp only [Prod.mk.injEq] at hq2 ⊢
      exact ⟨hq2.1, by rw [← hq2.2]; rfl⟩

/-- A spec-side execution returns one result per fragment. -/
theorem execFragmentsSpec_length (g : String → String → Bool) (tool_name : String) :
    ∀ (ps : List Params) (st st' : Coder) (rs : List String),
      execFragmentsSpec g tool_name ps st = some (st', rs) →
      rs.length = ps.length
  | [], st, st', rs => by
    intro h
    simp only [execFragmentsSpec, Option.some.injEq, Prod.mk.injEq] at h
    rw [← h.2]
    rfl
  | p :: ps, st, st', rs => by
    intro h
    simp only [execFragmentsSpec] at h
    cases hd : dispatchOne g st (strToLower tool_name) tool_name p with
    | error e => rw [hd] at h; exact absurd h (by simp)
    | ok q1 =>
      obtain ⟨st1, r⟩ := q1
      rw [hd] at h
      simp only at h
      obtain ⟨q, hq, hq2⟩ := Option.map_eq_some'.mp h
      have ih := execFragmentsSpec_length g tool_name ps st1 q.1 q.2 (by rw [← hq])
      simp only [Prod.mk.injEq] at hq2
      rw [← hq2.2, List.length_cons, ih, List.length_cons]

/-- When every element maps to `some`, `filterMap` returns exactly the
mapped list. -/
theorem filterMap_eq_of_mapM {α β : Type} (f : α → Option β) :
    ∀ (l : List α) (l' : List β), l.mapM f = some l' → l.filterMap f = l'
  | [], l' => by
    intro h
    simp only [List.mapM_nil, pure, Option.some.injEq] at h
    simp [← h]
  | a :: l, l' => by
    intro h
    rw [List.mapM_cons] at h
    cases hf : f a with
    | none => rw [hf] at h; exact absurd h (by simp [Bind.bind])
    | some b =>
      rw [hf] at h
      simp only [Bind.bind, Option.bind, pure, Option.some.injEq] at h
      cases hm : l.mapM f with
      | none => rw [hm] at h; exact absurd h (by simp)
      | some bs =>
        rw [hm] at h
        simp only [Option.some.injEq] at h
        rw [List.filterMap_cons_some hf, filterMap_eq_of_mapM f l bs hm, h]

/-- C4 (amended): for every ToolCall whose raw argument string splits
into JSON object fragments that all parse, and whose fragments' handler
invocations all return normally (no raised exception — in particular the
tool is not the broken `deletelines` dispatch path), the dispatcher
executes each fragment as an independent invocation of the same tool in
their original order and returns exactly one ToolResponse whose content
is the fragments' results concatenated with a blank-line separator. -/
theorem concat_dispatch_amended (g : String → String → Bool) (st st' : Coder)
    (tc : ToolCall) (chunks : List String) (ps : List Params) (rs : List String)
    (hsplit : splitConcatJson (strTrim tc.arguments) = chunks)
    (hparse : chunks.mapM jsonParseObj = some ps)
    (hne : ps ≠ [])
    (hexec : execFragmentsSpec g tc.name ps st = some (st', rs)) :
    parsedArgsList tc = ps ∧
    rs.length = ps.length ∧
    executeLocalToolCalls g st [tc] =
      (st', [⟨tc.id, tc.name, strJoin "\n\n" rs⟩]) := by
  have hargs : strTrim tc.arguments ≠ "" := by
    intro h0
    rw [h0] at hsplit
    have : chunks = [] := hsplit.symm
    subst this
    simp only [List.mapM_nil, pure, Option.some.injEq] at hparse
    exact hne hparse.symm
  have hlist : parsedArgsList tc = ps := by
    rw [parsedArgsList]
    simp only [if_neg hargs, hsplit, filterMap_eq_of_mapM jsonParseObj chunks ps hparse]
    rw [if_neg]
    simp [hne]
  refine ⟨hlist, execFragmentsSpec_length g tc.name ps st st' rs hexec, ?_⟩
  have hfrag := runFragments_of_spec g tc.name ps st st' rs hexec
  rw [executeLocalToolCalls, executeLocalToolCalls]
  simp only [processToolCall, hlist, hfrag]

/-- The C4 counterexample ToolCall: one `deletelines` call whose raw
arguments are two concatenated JSON objects. -/
def tcC4 : ToolCall :=
  ⟨"t1", "deletelines",
    "\x7b\"file_path\": \"a.py\", \"start_line\": 1, \"end_line\": 1\x7d\x7b\"file_path\": \"a.py\", \"start_line\": 2, \"end_line\": 2\x7d"⟩

/-- Counterexample to C4 as stated: a `deletelines` ToolCall carrying two
concatenated JSON objects is split into two fragments, but the dispatch
of the first raises (`_execute_deletelines` is undefined), so the single
ToolResponse carries one error text — not the concatenation, with a
blank-line separator, of the two results `_execute_delete_lines` would
have produced. -/
theorem concat_dispatch_counterexample :
    (parsedArgsList tcC4).length = 2 ∧
    executeLocalToolCalls (fun _ _ => false) stOneFile [tcC4] =
      (stOneFile, [⟨"t1", "deletelines",
        "Error executing deletelines: name '_execute_deletelines' is not defined"⟩]) ∧
    "Error executing deletelines: name '_execute_deletelines' is not defined" ≠
      (DeleteLines.run stOneFile "a.py" 1 1 none false).2 ++ "\n\n" ++
        (DeleteLines.run (DeleteLines.run stOneFile "a.py" 1 1 none false).1
          "a.py" 2 2 none false).2 := by
  refine ⟨by decide, by decide, by decide⟩

/-- The C4 witness ToolCall: one `ReplaceLine` call whose raw arguments
are two concatenated JSON objects. -/
def tcC4w : ToolCall :=
  ⟨"w1", "ReplaceLine",
    "\x7b\"file_path\": \"a.py\", \"line_number\": 1, \"new_content\": \"x=9\"\x7d\x7b\"file_path\": \"a.py\", \"line_number\": 2, \"new_content\": \"x=8\"\x7d"⟩

/-- The first independent invocation the C4 witness ToolCall requests. -/
def executeFragment1 : Coder × String :=
  ReplaceLine.run stOneFile "a.py" 1 "x=9" none false

/-- The second independent invocation, on the state the first one
produced. -/
def executeFragment2 : Coder × String :=
  ReplaceLine.run executeFragment1.1 "a.py" 2 "x=8" none false

/-- Witness for C4 (amended): a `ReplaceLine` ToolCall with two
concatenated JSON argument objects executes both edits in order against
one file and returns one ToolResponse joining both results with a blank
line. -/
theorem concat_dispatch_amended_witness :
    executeLocalToolCalls (fun _ _ => false) stOneFile [tcC4w] =
      ((executeFragment2).1,
        [⟨"w1", "ReplaceLine",
          (executeFragment1).2 ++ "\n\n" ++ (executeFragment2).2⟩]) := by
  have h := concat_dispatch_amended (fun _ _ => false) stOneFile
    (executeFragment2).1 tcC4w
    (splitConcatJson (strTrim tcC4w.arguments))
    [[("file_path", .str "a.py"), ("line_number", .num 1), ("new_content", .str "x=9")],
     [("file_path", .str "a.py"), ("line_number", .num 2), ("new_content", .str "x=8")]]
    [(executeFragment1).2, (executeFragment2).2]
    rfl (by decide) (by decide) (by decide)
  exact h.2.2

/-- C5 (amended): a failure raised while executing a parsed argument
fragment is caught at the ToolCall level, not the fragment level: the
whole ToolCall's response content becomes one `Error executing ...` text
(its remaining fragments are skipped, state changes of earlier fragments
persisting), while all subsequent ToolCalls still execute — the dispatch
loop composes sequentially over the call list — no exception propagates
out of the loop (the embedded loop is a total function), and every
ToolCall yields exactly one ToolResponse carrying its id and name, in
arrival order. -/
theorem fragment_failure_amended :
    (∀ (g : String → String → Bool) (st : Coder) (calls1 calls2 : List ToolCall),
      executeLocalToolCalls g st (calls1 ++ calls2) =
        ((executeLocalToolCalls g (executeLocalToolCalls g st calls1).1 calls2).1,
          (executeLocalToolCalls g st calls1).2 ++
            (executeLocalToolCalls g (executeLocalToolCalls g st calls1).1 calls2).2)) ∧
    (∀ (g : String → String → Bool) (st : Coder) (calls : List ToolCall),
      ((executeLocalToolCalls g st calls).2.map ToolResponse.tool_call_id =
        calls.map ToolCall.id) ∧
      ((executeLocalToolCalls g st calls).2.map ToolResponse.name =
        calls.map ToolCall.name)) ∧
    (∀ (g : String → String → Bool) (st : Coder) (tc : ToolCall) (e : String),
      (runFragments g st (strToLower tc.name) tc.name (parsedArgsList tc)).2 =
        .error e →
      (processToolCall g st tc).2.content = s!"Error executing {tc.name}: {e}") := by
  refine ⟨?_, ?_, ?_⟩
  · intro g st calls1 calls2
    induction calls1 generalizing st with
    | nil => simp [executeLocalToolCalls]
    | cons tc rest ih =>
      rw [List.cons_append, executeLocalToolCalls, executeLocalToolCalls]
      rw [ih (processToolCall g st tc).1]
      simp
  · intro g st calls
    induction calls generalizing st with
    | nil => exact ⟨rfl, rfl⟩
    | cons tc rest ih =>
      rw [executeLocalToolCalls]
      obtain ⟨ih1, ih2⟩ := ih (processToolCall g st tc).1
      refine ⟨?_, ?_⟩
      · simp only [List.map_cons, ih1]
        rfl
      · simp only [List.map_cons, ih2]
        rfl
  · intro g st tc e h
    simp only [processToolCall, h]

/-- The C5 counterexample ToolCalls: a `DeleteLines` call with two
parsed fragments followed by a `MakeReadonly` call. -/
def tcC5 : ToolCall :=
  ⟨"t2", "DeleteLines",
    "\x7b\"file_path\": \"a.py\", \"start_line\": 3, \"end_line\": 3\x7d\x7b\"file_path\": \"a.py\", \"start_line\": 1, \"end_line\": 1\x7d"⟩

/-- The ToolCall following the failing one in the C5 counterexample. -/
def tcC5b : ToolCall := ⟨"t3", "MakeReadonly", "\x7b\"file_path\": \"a.py\"\x7d"⟩

/-- Counterexample to C5 as stated: the failure in the first fragment of
a two-fragment `DeleteLines` ToolCall is not "turned into a textual error
result for that fragment only" with "the remaining fragments ... still
executed" — the ToolCall's entire content is a single error message with
no blank-line-separated per-fragment results (while the subsequent
`MakeReadonly` ToolCall does still execute). -/
theorem fragment_failure_counterexample :
    (parsedArgsList tcC5).length = 2 ∧
    (executeLocalToolCalls (fun _ _ => false) stOneFile [tcC5, tcC5b]).2 =
      [⟨"t2", "DeleteLines",
        "Error executing DeleteLines: name '_execute_deletelines' is not defined"⟩,
       ⟨"t3", "MakeReadonly", "File is now read-only"⟩] ∧
    strContains
      "Error executing DeleteLines: name '_execute_deletelines' is not defined"
      "\n\n" = false := by
  refine ⟨by decide, by decide, by decide⟩

/-- Witness for C5 (amended): the loop's sequential composition on
concrete call lists, the id/name correspondence, and the ToolCall-level
catch on a concrete failing `DeleteLines` call. -/
theorem fragment_failure_amended_witness :
    executeLocalToolCalls (fun _ _ => false) stOneFile ([tcC5] ++ [tcC5b]) =
      ((executeLocalToolCalls (fun _ _ => false)
          (executeLocalToolCalls (fun _ _ => false) stOneFile [tcC5]).1 [tcC5b]).1,
        (executeLocalToolCalls (fun _ _ => false) stOneFile [tcC5]).2 ++
          (executeLocalToolCalls (fun _ _ => false)
            (executeLocalToolCalls (fun _ _ => false) stOneFile [tcC5]).1 [tcC5b]).2) ∧
    (executeLocalToolCalls (fun _ _ => false) stOneFile [tcC5, tcC5b]).2.map
        ToolResponse.tool_call_id = ["t2", "t3"] ∧
    (processToolCall (fun _ _ => false) stOneFile tcC5).2.content =
      "Error executing DeleteLines: name '_execute_deletelines' is not defined" := by
  have h := fragment_failure_amended
  refine ⟨h.1 (fun _ _ => false) stOneFile [tcC5] [tcC5b], ?_, ?_⟩
  · have h2 := (h.2.1 (fun _ _ => false) stOneFile [tcC5, tcC5b]).1
    rw [h2]
    decide
  · have h3 := h.2.2 (fun _ _ => false) stOneFile tcC5
      deletelinesNameError (by decide)
    rw [h3]
    decide

/-- A session state whose file has no trailing newline. -/
def stNoNl : Coder := {
  files := [("b.py", "x=1\nx=2")]
  absFnames := {"b.py"}
  absReadOnlyFnames := ∅
  recentlyRemoved := []
  changeTracker := ChangeTracker.empty
  aiderEditedFiles := ∅
  maxFilesPerGlob := defaultMaxFilesPerGlob
  allFiles := ["b.py"]
  mtimes := []
  localToolNames := [] }

/-- Witness for C2: concrete identical-replacement calls return the
warning and leave the state untouched (`ReplaceText` replacing `x=1` by
itself, `ReplaceLine` rewriting a line with its own content, `ReplaceAll`
replacing `x=1` by itself). -/
theorem noop_edit_idempotence_witness :
    ReplaceText.run stOneFile "a.py" "x=1" "x=1" none 2 none false =
      (stOneFile, "Warning: No changes made (replacement identical to original)") ∧
    ReplaceLine.run stNoNl "b.py" 1 "x=1" none false =
      (stNoNl, "Warning: No changes made (new content identical to original)") ∧
    ReplaceAll.run stOneFile "a.py" "x=1" "x=1" none false =
      (stOneFile, "Warning: No changes made (replacement identical to original)") :=
  ⟨noop_edit_idempotence.1 stOneFile "a.py" "x=1" "x=1" none 2 none false
      "x=1\nx=1\nx=1\n" 1 (by decide) (by decide) (by decide) (by decide),
    noop_edit_idempotence.2.2.1 stNoNl "b.py" 1 "x=1" none false "x=1\nx=2"
      (by decide) (by decide) (by decide) (by decide),
    noop_edit_idempotence.2.2.2 stOneFile "a.py" "x=1" "x=1" none false
      "x=1\nx=1\nx=1\n" (by decide) (by decide) (by decide)⟩

end Aider
